import Mathlib

/- Verification of the color parsing and conversion core of the Shard
   repository (src/color.rs).

   Embedding conventions:
   * Rust strings are modeled as `List Char` (with `String` wrappers at the
     API boundary).  The anchored regular expressions used by the parsers are
     modeled by deterministic matcher functions; their equivalence to the
     regexes is argued case by case in the doc comments (for these patterns
     greedy maximal-munch matching coincides with backtracking matching
     because the token alphabets are disjoint from the separator alphabets).
   * Rust `f32` arithmetic is idealized: exact rational arithmetic (`ℚ`)
     where the source only uses field operations and comparisons, and exact
     real arithmetic (`ℝ`) for the transcendental OKLCH / sRGB-gamma
     pipeline.  `f32::EPSILON` is the exact rational 2⁻²³.
   * `u8` values are modeled as `ℕ` (with explicit `≤ 255` facts where
     needed); the saturating Rust float-to-`u8` cast is `u8cast ∘ rustRound`.
-/

namespace Shard

/-- Whitespace, modeling both Rust's `str::trim` character class and the
regex class `\s` (restricted to the ASCII range, which is all the claims
exercise). -/
def isWs (c : Char) : Bool :=
  c = ' ' || c = '\t' || c = '\n' || c = '\x0b' || c = '\x0c' || c = '\r'

/-- The regex class `[0-9a-fA-F]`. -/
def isHexDigitC (c : Char) : Bool :=
  c.isDigit || ('a' ≤ c && c ≤ 'f') || ('A' ≤ c && c ≤ 'F')

/-- Word characters for the regex word boundary `\b` (ASCII `\w`). -/
def isWordChar (c : Char) : Bool :=
  c.isDigit || ('a' ≤ c && c ≤ 'z') || ('A' ≤ c && c ≤ 'Z') || c = '_'

/-- Numeric value of a hex digit. -/
def hexVal (c : Char) : ℕ :=
  if c.isDigit then c.toNat - '0'.toNat
  else if 'a' ≤ c && c ≤ 'f' then c.toNat - 'a'.toNat + 10
  else c.toNat - 'A'.toNat + 10

/-- Value of a decimal digit string (callers guarantee all characters are
digits). -/
def natOfDigits (l : List Char) : ℕ :=
  l.foldl (fun n c => 10 * n + (c.toNat - '0'.toNat)) 0

/-- Rust `str::trim`: drop whitespace from both ends. -/
def trimChars (l : List Char) : List Char :=
  ((l.dropWhile isWs).reverse.dropWhile isWs).reverse

/-- Rust `str::parse::<u8>` on a string of 1–3 decimal digits: succeeds
iff the value fits in a byte. -/
def u8parse (l : List Char) : Option ℕ :=
  let n := natOfDigits l
  if n ≤ 255 then some n else none

/-- Rust `str::parse::<f32>` on a string drawn from the regex class
`[\d.]+`, idealized to exact rationals: such a string is a valid float
literal iff it has at most one dot and at least one digit. -/
def floatParse (l : List Char) : Option ℚ :=
  if l.count '.' ≤ 1 && l.any Char.isDigit then
    let ip := l.takeWhile (fun c => c ≠ '.')
    let fp := (l.dropWhile (fun c => c ≠ '.')).drop 1
    some ((natOfDigits ip : ℚ) + (natOfDigits fp : ℚ) / 10 ^ fp.length)
  else none

/-- Rust `f32::round` (round half away from zero), generic over `ℚ` and `ℝ`. -/
def rustRound {α : Type} [LinearOrderedField α] [FloorRing α] (x : α) : ℤ :=
  if 0 ≤ x then ⌊x + 1 / 2⌋ else ⌈x - 1 / 2⌉

/-- Rust saturating float-to-`u8` cast (applied after rounding). -/
def u8cast (z : ℤ) : ℕ := (min (max z 0) 255).toNat

/-- Rust `f32::clamp(lo, hi)`. -/
def qclamp (x lo hi : ℚ) : ℚ := min (max x lo) hi

/-- `f32::EPSILON` as an exact rational: 2⁻²³. -/
def f32eps : ℚ := 1 / 8388608

/-- The `Color` struct of src/color.rs: RGBA plus caller-owned id and label. -/
structure Color where
  id : ℤ
  r : ℕ
  g : ℕ
  b : ℕ
  a : ℚ
  label : String
deriving DecidableEq, Repr

/-- `Color::new`: id 0, alpha clamped to [0,1]. -/
def Color.new (r g b : ℕ) (a : ℚ) (label : String) : Color :=
  ⟨0, r, g, b, qclamp a 0 1, label⟩

/-- The single parse error kind of src/color.rs. -/
inductive ColorParseError where
  | InvalidFormat : String → ColorParseError
deriving DecidableEq, Repr

/-- `hue_to_rgb` of src/color.rs (pure rational arithmetic). -/
def hue_to_rgb (p q t : ℚ) : ℚ :=
  let t1 := if t < 0 then t + 1 else t
  let t2 := if t1 > 1 then t1 - 1 else t1
  if t2 < 1 / 6 then p + (q - p) * 6 * t2
  else if t2 < 1 / 2 then q
  else if t2 < 2 / 3 then p + (q - p) * (2 / 3 - t2) * 6
  else p

/-- `hsl_to_rgb` of src/color.rs (pure rational arithmetic; the float
round-and-narrow `(x * 255.0).round() as u8` is `u8cast ∘ rustRound`). -/
def hsl_to_rgb (h s l : ℚ) : ℕ × ℕ × ℕ :=
  if s = 0 then
    let v := u8cast (rustRound (l * 255))
    (v, v, v)
  else
    let q := if l < 1 / 2 then l * (1 + s) else l + s - l * s
    let p := 2 * l - q
    let h' := h / 360
    let r := hue_to_rgb p q (h' + 1 / 3)
    let g := hue_to_rgb p q h'
    let b := hue_to_rgb p q (h' - 1 / 3)
    (u8cast (rustRound (r * 255)), u8cast (rustRound (g * 255)),
      u8cast (rustRound (b * 255)))

/-- `rgb_to_hsl` of src/color.rs.  The `f32::EPSILON` comparisons of the
source are kept verbatim (`f32eps`). -/
def rgb_to_hsl (r g b : ℕ) : ℚ × ℚ × ℚ :=
  let r' : ℚ := (r : ℚ) / 255
  let g' : ℚ := (g : ℚ) / 255
  let b' : ℚ := (b : ℚ) / 255
  let mx := max (max r' g') b'
  let mn := min (min r' g') b'
  let l := (mx + mn) / 2
  if |mx - mn| < f32eps then (0, 0, l)
  else
    let d := mx - mn
    let s := if l > 1 / 2 then d / (2 - mx - mn) else d / (mx + mn)
    let h :=
      if |mx - r'| < f32eps then (g' - b') / d + (if g' < b' then 6 else 0)
      else if |mx - g'| < f32eps then (b' - r') / d + 2
      else (r' - g') / d + 4
    (h * 60, s, l)

/-- `srgb_to_linear` of src/color.rs, over exact reals. -/
noncomputable def srgb_to_linear (c : ℝ) : ℝ :=
  if c ≤ 0.04045 then c / 12.92 else ((c + 0.055) / 1.055) ^ (2.4 : ℝ)

/-- `linear_to_srgb` of src/color.rs, over exact reals. -/
noncomputable def linear_to_srgb (c : ℝ) : ℝ :=
  if c ≤ 0.0031308 then c * 12.92 else 1.055 * c ^ ((1 : ℝ) / 2.4) - 0.055

/-- Real cube root, modeling `f32::cbrt` (odd extension of `x ^ (1/3)`). -/
noncomputable def rcbrt (x : ℝ) : ℝ :=
  if x < 0 then -((-x) ^ ((1 : ℝ) / 3)) else x ^ ((1 : ℝ) / 3)

/-- `f32::atan2` (self = y, other = x), modeled by the complex argument,
which has the same range (−π, π] and the same conventions on the axes. -/
noncomputable def atan2 (y x : ℝ) : ℝ := Complex.arg ⟨x, y⟩

/-- Rust `f32::clamp(0.0, 1.0)` over exact reals. -/
noncomputable def rclamp01 (x : ℝ) : ℝ := min (max x 0) 1

/-- `rgb_to_oklch` of src/color.rs, over exact reals. -/
noncomputable def rgb_to_oklch (r g b : ℕ) : ℝ × ℝ × ℝ :=
  let r_lin := srgb_to_linear ((r : ℝ) / 255)
  let g_lin := srgb_to_linear ((g : ℝ) / 255)
  let b_lin := srgb_to_linear ((b : ℝ) / 255)
  let l := 0.4122214708 * r_lin + 0.5363325363 * g_lin + 0.0514459929 * b_lin
  let m := 0.2119034982 * r_lin + 0.6806995451 * g_lin + 0.1073969566 * b_lin
  let s := 0.0883024619 * r_lin + 0.2817188376 * g_lin + 0.6299787005 * b_lin
  let l_ := rcbrt l
  let m_ := rcbrt m
  let s_ := rcbrt s
  let ok_l := 0.2104542553 * l_ + 0.7936177850 * m_ - 0.0040720468 * s_
  let ok_a := 1.9779984951 * l_ - 2.4285922050 * m_ + 0.4505937099 * s_
  let ok_b := 0.0259040371 * l_ + 0.7827717662 * m_ - 0.8086757660 * s_
  let c := Real.sqrt (ok_a * ok_a + ok_b * ok_b)
  let h :=
    if c < 1e-8 then 0
    else
      let h_deg := atan2 ok_b ok_a * (180 / Real.pi)
      if h_deg < 0 then h_deg + 360 else h_deg
  (ok_l, c, h)

/-- `oklch_to_rgb` of src/color.rs, over exact reals. -/
noncomputable def oklch_to_rgb (l c h : ℝ) : ℕ × ℕ × ℕ :=
  let h_rad := h * (Real.pi / 180)
  let ok_a := c * Real.cos h_rad
  let ok_b := c * Real.sin h_rad
  let l_ := l + 0.3963377774 * ok_a + 0.2158037573 * ok_b
  let m_ := l - 0.1055613458 * ok_a - 0.0638541728 * ok_b
  let s_ := l - 0.0894841775 * ok_a - 1.2914855480 * ok_b
  let lms_l := l_ * l_ * l_
  let lms_m := m_ * m_ * m_
  let lms_s := s_ * s_ * s_
  let r_lin := 4.0767416621 * lms_l - 3.3077115913 * lms_m + 0.2309699292 * lms_s
  let g_lin := -1.2684380046 * lms_l + 2.6097574011 * lms_m - 0.3413193965 * lms_s
  let b_lin := -0.0041960863 * lms_l - 0.7034186147 * lms_m + 1.7076147010 * lms_s
  let r := rclamp01 (linear_to_srgb r_lin)
  let g := rclamp01 (linear_to_srgb g_lin)
  let b := rclamp01 (linear_to_srgb b_lin)
  (u8cast (rustRound (r * 255)), u8cast (rustRound (g * 255)),
    u8cast (rustRound (b * 255)))

/-- The conversion described by the spec sentence for claim C7: clamp each
linear channel to [0,1] first, then apply the sRGB encoding.  (The source
instead encodes first and clamps the encoded value; C7's theorem proves the
two agree.) -/
noncomputable def oklch_to_rgb_clampfirst (l c h : ℝ) : ℕ × ℕ × ℕ :=
  let h_rad := h * (Real.pi / 180)
  let ok_a := c * Real.cos h_rad
  let ok_b := c * Real.sin h_rad
  let l_ := l + 0.3963377774 * ok_a + 0.2158037573 * ok_b
  let m_ := l - 0.1055613458 * ok_a - 0.0638541728 * ok_b
  let s_ := l - 0.0894841775 * ok_a - 1.2914855480 * ok_b
  let lms_l := l_ * l_ * l_
  let lms_m := m_ * m_ * m_
  let lms_s := s_ * s_ * s_
  let r_lin := 4.0767416621 * lms_l - 3.3077115913 * lms_m + 0.2309699292 * lms_s
  let g_lin := -1.2684380046 * lms_l + 2.6097574011 * lms_m - 0.3413193965 * lms_s
  let b_lin := -0.0041960863 * lms_l - 0.7034186147 * lms_m + 1.7076147010 * lms_s
  let r := linear_to_srgb (rclamp01 r_lin)
  let g := linear_to_srgb (rclamp01 g_lin)
  let b := linear_to_srgb (rclamp01 b_lin)
  (u8cast (rustRound (r * 255)), u8cast (rustRound (g * 255)),
    u8cast (rustRound (b * 255)))

/- ============================================================
   Deterministic matchers for the four anchored regexes.
   ============================================================ -/

/-- Drop the regex `\s*`. -/
def dropWs (l : List Char) : List Char := l.dropWhile isWs

/-- Consume one case-insensitive letter (`t` is given lowercase). -/
def eatCI (t : Char) (l : List Char) : Option (List Char) :=
  match l with
  | c :: rest => if c.toLower = t then some rest else none
  | [] => none

/-- Consume one exact character. -/
def eatChar (t : Char) (l : List Char) : Option (List Char) :=
  match l with
  | c :: rest => if c = t then some rest else none
  | [] => none

/-- Consume an optional case-insensitive letter (regex `t?`). -/
def eatOptCI (t : Char) (l : List Char) : List Char :=
  match l with
  | c :: rest => if c.toLower = t then rest else l
  | [] => l

/-- Consume an optional exact character (regex `t?`). -/
def eatOptChar (t : Char) (l : List Char) : List Char :=
  match l with
  | c :: rest => if c = t then rest else l
  | [] => l

/-- Consume the regex `\s+` (at least one whitespace character). -/
def eatWs1 (l : List Char) : Option (List Char) :=
  match l with
  | c :: rest => if isWs c then some (dropWs rest) else none
  | [] => none

/-- Capture the regex `(\d{1,3})`.  The following token in every use site
is drawn from `{ ws, ',', '%', ')' }`, none of which is a digit, so greedy
maximal munch with a length check is equivalent to backtracking. -/
def num13 (l : List Char) : Option (List Char × List Char) :=
  let d := l.takeWhile Char.isDigit
  if 1 ≤ d.length && d.length ≤ 3 then some (d, l.drop d.length) else none

/-- Capture the regex `([\d.]+)`.  Follow tokens are `ws`, `)` — disjoint
from the class, so maximal munch is equivalent. -/
def floatChars (l : List Char) : Option (List Char × List Char) :=
  let d := l.takeWhile (fun c => c.isDigit || c = '.')
  if 1 ≤ d.length then some (d, l.drop d.length) else none

/-- Capture the regex `(\d{1,3}(?:\.\d+)?)` used by the HSL pattern.
If a dot follows the integer part but no digit follows the dot, the regex
fails to match overall because the character after the skipped optional
group would be `.`, which matches none of the follow tokens. -/
def hslNum (l : List Char) : Option (List Char × List Char) :=
  match num13 l with
  | none => none
  | some (d, rest) =>
    match rest with
    | '.' :: rest2 =>
      let f := rest2.takeWhile Char.isDigit
      if 1 ≤ f.length then some (d ++ '.' :: f, rest2.drop f.length)
      else none
    | _ => some (d, rest)

/-- Match the regex tail `\s*(?:SEP\s*([\d.]+))?\s*\)$` common to the
rgb/hsl (SEP = ',') and oklch (SEP = '/') patterns: returns the optional
alpha capture.  The whole input must be consumed (the patterns are
anchored with `$`). -/
def alphaTail (sep : Char) (l : List Char) : Option (Option (List Char)) :=
  let l1 := dropWs l
  match l1 with
  | c :: r =>
    if c = sep then
      match floatChars (dropWs r) with
      | some (a, r2) =>
        if dropWs r2 = [')'] then some (some a) else none
      | none => none
    else if l1 = [')'] then some none else none
  | [] => none

/-- The part of the input after the optional leading `#` (regex `^#?`). -/
def hexBody (l : List Char) : List Char :=
  match l with
  | '#' :: rest => rest
  | _ => l

/-- Captures of `HEX_REGEX`: `(?i)^#?([0-9a-f]{3}|[0-9a-f]{4}|[0-9a-f]{6}|[0-9a-f]{8})$`.
Returns the capture group (the digit body). -/
def hexCaps (l : List Char) : Option (List Char) :=
  let body := hexBody l
  if body.all isHexDigitC &&
      (body.length = 3 || body.length = 4 || body.length = 6 || body.length = 8) then
    some body
  else none

/-- Captures of `RGB_REGEX`:
`(?i)^rgba?\s*\(\s*(\d{1,3})\s*,\s*(\d{1,3})\s*,\s*(\d{1,3})\s*(?:,\s*([\d.]+))?\s*\)$`. -/
def rgbCaps (l : List Char) :
    Option ((List Char × List Char × List Char) × Option (List Char)) := do
  let r1 ← eatCI 'r' l
  let r2 ← eatCI 'g' r1
  let r3 ← eatCI 'b' r2
  let r4 := eatOptCI 'a' r3
  let r5 ← eatChar '(' (dropWs r4)
  let (d1, r6) ← num13 (dropWs r5)
  let r7 ← eatChar ',' (dropWs r6)
  let (d2, r8) ← num13 (dropWs r7)
  let r9 ← eatChar ',' (dropWs r8)
  let (d3, r10) ← num13 (dropWs r9)
  let aOpt ← alphaTail ',' r10
  pure ((d1, d2, d3), aOpt)

/-- Captures of `HSL_REGEX`:
`(?i)^hsla?\s*\(\s*(\d{1,3}(?:\.\d+)?)\s*,\s*(\d{1,3}(?:\.\d+)?)%?\s*,\s*(\d{1,3}(?:\.\d+)?)%?\s*(?:,\s*([\d.]+))?\s*\)$`. -/
def hslCaps (l : List Char) :
    Option ((List Char × List Char × List Char) × Option (List Char)) := do
  let r1 ← eatCI 'h' l
  let r2 ← eatCI 's' r1
  let r3 ← eatCI 'l' r2
  let r4 := eatOptCI 'a' r3
  let r5 ← eatChar '(' (dropWs r4)
  let (d1, r6) ← hslNum (dropWs r5)
  let r7 ← eatChar ',' (dropWs r6)
  let (d2, r8) ← hslNum (dropWs r7)
  let r8' := eatOptChar '%' r8
  let r9 ← eatChar ',' (dropWs r8')
  let (d3, r10) ← hslNum (dropWs r9)
  let r10' := eatOptChar '%' r10
  let aOpt ← alphaTail ',' r10'
  pure ((d1, d2, d3), aOpt)

/-- Captures of `OKLCH_REGEX`:
`(?i)^oklch\s*\(\s*([\d.]+)%?\s+([\d.]+)\s+([\d.]+)\s*(?:/\s*([\d.]+))?\s*\)$`. -/
def oklchCaps (l : List Char) :
    Option ((List Char × List Char × List Char) × Option (List Char)) := do
  let r1 ← eatCI 'o' l
  let r2 ← eatCI 'k' r1
  let r3 ← eatCI 'l' r2
  let r4 ← eatCI 'c' r3
  let r5 ← eatCI 'h' r4
  let r6 ← eatChar '(' (dropWs r5)
  let (d1, r7) ← floatChars (dropWs r6)
  let r7' := eatOptChar '%' r7
  let r8 ← eatWs1 r7'
  let (d2, r9) ← floatChars r8
  let r10 ← eatWs1 r9
  let (d3, r11) ← floatChars r10
  let aOpt ← alphaTail '/' r11
  pure ((d1, d2, d3), aOpt)

/- ============================================================
   The four format parsers and Color::parse.
   ============================================================ -/

/-- `parse_hex` of src/color.rs.  `u8::from_str_radix(&hex[i..i+1].repeat(2), 16)`
on a single hex digit of value v yields the byte 17·v; on two digits it is
16·v₁ + v₂ (never failing on hex digits). -/
def parse_hex (l : List Char) : Option Color :=
  match hexCaps l with
  | none => none
  | some body =>
    match body with
    | [c1, c2, c3] =>
      some (Color.new (17 * hexVal c1) (17 * hexVal c2) (17 * hexVal c3) 1 "")
    | [c1, c2, c3, c4] =>
      some (Color.new (17 * hexVal c1) (17 * hexVal c2) (17 * hexVal c3)
        ((17 * hexVal c4 : ℚ) / 255) "")
    | [c1, c2, c3, c4, c5, c6] =>
      some (Color.new (16 * hexVal c1 + hexVal c2) (16 * hexVal c3 + hexVal c4)
        (16 * hexVal c5 + hexVal c6) 1 "")
    | [c1, c2, c3, c4, c5, c6, c7, c8] =>
      some (Color.new (16 * hexVal c1 + hexVal c2) (16 * hexVal c3 + hexVal c4)
        (16 * hexVal c5 + hexVal c6)
        ((16 * hexVal c7 + hexVal c8 : ℚ) / 255) "")
    | _ => none

/-- `parse_rgb` of src/color.rs. -/
def parse_rgb (l : List Char) : Option Color := do
  let ((d1, d2, d3), aOpt) ← rgbCaps l
  let r ← u8parse d1
  let g ← u8parse d2
  let b ← u8parse d3
  let a : ℚ := (aOpt.map (fun m => (floatParse m).getD 1)).getD 1
  pure (Color.new r g b a "")

/-- `parse_hsl` of src/color.rs. -/
def parse_hsl (l : List Char) : Option Color := do
  let ((d1, d2, d3), aOpt) ← hslCaps l
  let h ← floatParse d1
  let s ← floatParse d2
  let lq ← floatParse d3
  let a : ℚ := (aOpt.map (fun m => (floatParse m).getD 1)).getD 1
  let s' := s / 100
  let l' := lq / 100
  if h > 360 ∨ s' > 1 ∨ l' > 1 then none
  else
    let (r, g, b) := hsl_to_rgb h s' l'
    pure (Color.new r g b a "")

/-- `parse_oklch` of src/color.rs. -/
noncomputable def parse_oklch (l : List Char) : Option Color :=
  match oklchCaps l with
  | none => none
  | some ((d1, d2, d3), aOpt) =>
    match floatParse d1, floatParse d2, floatParse d3 with
    | some lv, some cv, some hv =>
      let a : ℚ := (aOpt.map (fun m => (floatParse m).getD 1)).getD 1
      let lv' := lv / 100
      if lv' > 1 ∨ hv > 360 then none
      else
        let (r, g, b) := oklch_to_rgb (lv' : ℝ) (cv : ℝ) (hv : ℝ)
        some (Color.new r g b a "")
    | _, _, _ => none

/-- `Color::parse` of src/color.rs: trim, then try hex, rgb, hsl, oklch in
order; `InvalidFormat` carrying the trimmed input if all fail. -/
noncomputable def Color.parse (input : String) : Except ColorParseError Color :=
  let t := trimChars input.data
  match parse_hex t with
  | some c => .ok c
  | none =>
    match parse_rgb t with
    | some c => .ok c
    | none =>
      match parse_hsl t with
      | some c => .ok c
      | none =>
        match parse_oklch t with
        | some c => .ok c
        | none => .error (.InvalidFormat (String.mk t))

/- ============================================================
   Serialization: Color::to_hex.
   ============================================================ -/

/-- Uppercase hex digit of a value < 16. -/
def hexDigitU (n : ℕ) : Char :=
  if n < 10 then Char.ofNat ('0'.toNat + n) else Char.ofNat ('A'.toNat + (n - 10))

/-- The Rust format `{:02X}` on a byte: two uppercase hex digits,
zero padded. -/
def byteHex (n : ℕ) : List Char := [hexDigitU (n / 16), hexDigitU (n % 16)]

/-- `Color::to_hex` of src/color.rs: `#RRGGBB` when alpha is within
`f32::EPSILON` of 1, else `#RRGGBBAA` with alpha byte `(a * 255).round()`. -/
def Color.to_hex (c : Color) : String :=
  if |c.a - 1| < f32eps then
    String.mk ('#' :: (byteHex c.r ++ byteHex c.g ++ byteHex c.b))
  else
    String.mk ('#' :: (byteHex c.r ++ byteHex c.g ++ byteHex c.b ++
      byteHex (u8cast (rustRound (c.a * 255)))))

/- ============================================================
   Text scanning: extract_colors_from_text.
   ============================================================ -/

/-- Attempt of the finder regex `#[0-9a-fA-F]{3,8}\b` at the head of the
list: a `#`, then a maximal hex-digit run of length 3–8, then a word
boundary.  (If the run is longer than 8 or the character after it is a word
character, every backtracking choice leaves a hex digit — a word character —
after the match, so there is no match at this position.)  Returns the
remainder after the match. -/
def tryHexF (l : List Char) : Option (List Char) :=
  match l with
  | '#' :: rest =>
    let run := rest.takeWhile isHexDigitC
    let k := run.length
    let after := rest.drop k
    if 3 ≤ k && k ≤ 8 && (after.isEmpty || !(isWordChar (after.headD ' '))) then
      some after
    else none
  | _ => none

/-- Attempt of a finder regex `PREFIX[a]?\s*\([^)]+\)` at the head of the
list (PREFIX case-insensitive, optional `a` controlled by `optA`).
`[^)]+` is a maximal run of non-`)` characters followed by `)`, i.e. the
match extends to the first `)`. -/
def tryFnF (letters : List Char) (optA : Bool) (l : List Char) :
    Option (List Char) := do
  let r1 ← letters.foldlM (fun acc t => eatCI t acc) l
  let r2 := if optA then eatOptCI 'a' r1 else r1
  let r3 ← eatChar '(' (dropWs r2)
  let inner := r3.takeWhile (fun c => c ≠ ')')
  if 1 ≤ inner.length then
    match r3.drop inner.length with
    | ')' :: rem => some rem
    | _ => none
  else none

/-- Non-overlapping leftmost scan (the semantics of `find_iter`): try the
matcher at every position, emit each match, and continue after its end.
Structural fuel recursion (fuel = list length) so that the kernel can
evaluate it. -/
def scanAux (tryAt : List Char → Option (List Char)) :
    ℕ → List Char → List (List Char)
  | 0, _ => []
  | _, [] => []
  | fuel + 1, c :: rest =>
    match tryAt (c :: rest) with
    | some rem =>
      ((c :: rest).take ((c :: rest).length - rem.length)) ::
        scanAux tryAt fuel rem
    | none => scanAux tryAt fuel rest

/-- All matches of a finder regex in a text. -/
def scanner (tryAt : List Char → Option (List Char)) (l : List Char) :
    List (List Char) :=
  scanAux tryAt l.length l

/-- The four finder passes of `extract_colors_from_text`. -/
def scanHexL (l : List Char) : List (List Char) := scanner tryHexF l

def scanRgbL (l : List Char) : List (List Char) :=
  scanner (tryFnF ['r', 'g', 'b'] true) l

def scanHslL (l : List Char) : List (List Char) :=
  scanner (tryFnF ['h', 's', 'l'] true) l

def scanOklchL (l : List Char) : List (List Char) :=
  scanner (tryFnF ['o', 'k', 'l', 'c', 'h'] false) l

/-- One pass of `extract_colors_from_text`: re-parse every match through
`Color::parse`, silently dropping failures. -/
noncomputable def extractPass (found : List (List Char)) : List Color :=
  found.filterMap (fun m => (Color.parse (String.mk m)).toOption)

/-- `extract_colors_from_text` of src/color.rs: four independent scans in
the fixed order hex → rgb → hsl → oklch, each appending its successfully
parsed colors to the accumulator vector. -/
noncomputable def extract_colors_from_text (text : String) : List Color :=
  let colors : List Color := []
  let colors := colors ++ extractPass (scanHexL text.data)
  let colors := colors ++ extractPass (scanRgbL text.data)
  let colors := colors ++ extractPass (scanHslL text.data)
  let colors := colors ++ extractPass (scanOklchL text.data)
  colors

/- ============================================================
   Helper lemmas.
   ============================================================ -/

/-- `Color.parse` as a single case split over the four format parsers. -/
theorem color_parse_cases (s : String) :
    Color.parse s =
      (match parse_hex (trimChars s.data), parse_rgb (trimChars s.data),
          parse_hsl (trimChars s.data), parse_oklch (trimChars s.data) with
        | some c, _, _, _ => .ok c
        | none, some c, _, _ => .ok c
        | none, none, some c, _ => .ok c
        | none, none, none, some c => .ok c
        | none, none, none, none =>
          .error (.InvalidFormat (String.mk (trimChars s.data)))) := by
  simp only [Color.parse]
  cases parse_hex (trimChars s.data) <;>
    cases parse_rgb (trimChars s.data) <;>
      cases parse_hsl (trimChars s.data) <;>
        cases parse_oklch (trimChars s.data) <;> rfl

/-- `parse_oklch` fails whenever the OKLCH regex does not match. -/
theorem parse_oklch_of_caps_none {l : List Char} (h : oklchCaps l = none) :
    parse_oklch l = none := by
  unfold parse_oklch
  rw [h]

theorem hexBody_hash (l : List Char) : hexBody ('#' :: l) = l := rfl

theorem hexBody_ne {c : Char} (l : List Char) (h : c ≠ '#') :
    hexBody (c :: l) = c :: l := by
  unfold hexBody
  split
  · next heq => exact absurd (List.cons.inj heq).1 h
  · rfl

theorem hex_digit_ne_hash {c : Char} (h : isHexDigitC c = true) : c ≠ '#' := by
  intro hc
  subst hc
  exact absurd h (by decide)

/-- `floatParse` on a nonempty all-digit string succeeds with its decimal
value (Rust float parsing of a plain integer literal). -/
theorem floatParse_digits {l : List Char} (hne : l ≠ [])
    (h : ∀ c ∈ l, Char.isDigit c) : floatParse l = some (natOfDigits l) := by
  have hdot : ∀ c ∈ l, c ≠ '.' := by
    intro c hc he
    subst he
    exact absurd (h _ hc) (by decide)
  have htw : l.takeWhile (fun c => c ≠ '.') = l := by
    rw [List.takeWhile_eq_self_iff]
    intro a ha
    simpa using hdot a ha
  have hdw : l.dropWhile (fun c => c ≠ '.') = [] := by
    rw [List.dropWhile_eq_nil_iff]
    intro a ha
    simpa using hdot a ha
  have hcount : l.count '.' = 0 := by
    rw [List.count_eq_zero]
    intro hmem
    exact hdot '.' hmem rfl
  have hany : l.any Char.isDigit = true := by
    rcases l with _ | ⟨c, rest⟩
    · exact absurd rfl hne
    · simp only [List.any_cons, Bool.or_eq_true]
      exact Or.inl (h c (by simp))
  unfold floatParse
  rw [htw, hdw, hcount, hany]
  norm_num [natOfDigits]

/- ============================================================
   Claim theorems.
   ============================================================ -/

/-- C2: `Color::parse` trims the input, then attempts hex, rgb/rgba,
hsl/hsla, oklch in that fixed order; the first attempt that succeeds
determines the result, and the parse returns an error iff all four attempts
fail, in which case the error is `InvalidFormat` carrying exactly the
trimmed input string. -/
theorem parse_fixed_order_first_wins (s : String) :
    (∀ c, parse_hex (trimChars s.data) = some c → Color.parse s = .ok c) ∧
    (∀ c, parse_hex (trimChars s.data) = none →
      parse_rgb (trimChars s.data) = some c → Color.parse s = .ok c) ∧
    (∀ c, parse_hex (trimChars s.data) = none →
      parse_rgb (trimChars s.data) = none →
      parse_hsl (trimChars s.data) = some c → Color.parse s = .ok c) ∧
    (∀ c, parse_hex (trimChars s.data) = none →
      parse_rgb (trimChars s.data) = none →
      parse_hsl (trimChars s.data) = none →
      parse_oklch (trimChars s.data) = some c → Color.parse s = .ok c) ∧
    ((∃ e, Color.parse s = .error e) ↔
      (parse_hex (trimChars s.data) = none ∧
        parse_rgb (trimChars s.data) = none ∧
        parse_hsl (trimChars s.data) = none ∧
        parse_oklch (trimChars s.data) = none)) ∧
    (∀ e, Color.parse s = .error e →
      e = .InvalidFormat (String.mk (trimChars s.data))) := by
  rw [color_parse_cases]
  cases h1 : parse_hex (trimChars s.data) <;>
    cases h2 : parse_rgb (trimChars s.data) <;>
      cases h3 : parse_hsl (trimChars s.data) <;>
        cases h4 : parse_oklch (trimChars s.data) <;>
          simp

/-- Witness for C2: on the input "not a color" every format attempt fails
and the parse yields `InvalidFormat` with the trimmed input itself. -/
theorem parse_fixed_order_first_wins_witness :
    Color.parse ("not a color") =
      .error (.InvalidFormat ("not a color")) := by
  have h1 : parse_hex (trimChars ("not a color").data) = none := by decide
  have h2 : parse_rgb (trimChars ("not a color").data) = none := by decide
  have h3 : parse_hsl (trimChars ("not a color").data) = none := by decide
  have h4 : parse_oklch (trimChars ("not a color").data) = none :=
    parse_oklch_of_caps_none (by decide)
  obtain ⟨e, he⟩ :=
    (parse_fixed_order_first_wins ("not a color")).2.2.2.2.1.mpr ⟨h1, h2, h3, h4⟩
  have heq := (parse_fixed_order_first_wins ("not a color")).2.2.2.2.2 e he
  rw [heq] at he
  rw [he]
  congr 1

/-- Every color produced by `parse_hex` has id 0 and empty label. -/
theorem parse_hex_fields {l : List Char} {c : Color}
    (h : parse_hex l = some c) : c.id = 0 ∧ c.label = "" := by
  unfold parse_hex at h
  split at h
  · exact absurd h (by simp)
  · split at h
    all_goals cases h
    all_goals exact ⟨rfl, rfl⟩

/-- Every color produced by `parse_rgb` has id 0 and empty label. -/
theorem parse_rgb_fields {l : List Char} {c : Color}
    (h : parse_rgb l = some c) : c.id = 0 ∧ c.label = "" := by
  simp only [parse_rgb, bind, Option.bind_eq_some, Option.pure_def,
    Option.some.injEq] at h
  obtain ⟨⟨⟨d1, d2, d3⟩, aOpt⟩, hcaps, r, hr, g, hg, b, hb, hc⟩ := h
  subst hc
  exact ⟨rfl, rfl⟩

/-- Every color produced by `parse_hsl` has id 0 and empty label. -/
theorem parse_hsl_fields {l : List Char} {c : Color}
    (h : parse_hsl l = some c) : c.id = 0 ∧ c.label = "" := by
  simp only [parse_hsl, bind, Option.bind_eq_some, Option.pure_def,
    Option.some.injEq] at h
  obtain ⟨⟨⟨d1, d2, d3⟩, aOpt⟩, hcaps, hv, hh1, sv, hs1, lv, hl1, hrest⟩ := h
  split at hrest
  · exact absurd hrest (by simp)
  · obtain ⟨hc⟩ := hrest
    exact ⟨rfl, rfl⟩

/-- Every color produced by `parse_oklch` has id 0 and empty label. -/
theorem parse_oklch_fields {l : List Char} {c : Color}
    (h : parse_oklch l = some c) : c.id = 0 ∧ c.label = "" := by
  unfold parse_oklch at h
  split at h
  · exact absurd h (by simp)
  · split at h
    · simp only [Option.some.injEq] at h
      split at h
      · exact absurd h (by simp)
      · simp only [Option.some.injEq] at h
        subst h
        exact ⟨rfl, rfl⟩
    · exact absurd h (by simp)

/-- C10: every color returned by `Color::parse` has id 0 and an empty
label; the parser never derives identity or label information from the
parsed text. -/
theorem parse_never_assigns_identity (s : String) (c : Color)
    (h : Color.parse s = .ok c) : c.id = 0 ∧ c.label = "" := by
  rw [color_parse_cases] at h
  split at h
  · next heq =>
    cases h
    exact parse_hex_fields heq
  · next _ heq =>
    cases h
    exact parse_rgb_fields heq
  · next _ _ heq =>
    cases h
    exact parse_hsl_fields heq
  · next _ _ _ heq =>
    cases h
    exact parse_oklch_fields heq
  · cases h

/-- Evaluation of `Color::parse` on `"#fff"` (helper for the C10 witness). -/
theorem parse_hash_fff_eval :
    Color.parse ("#fff") = .ok (Color.new 255 255 255 1 "") := by
  rw [color_parse_cases]
  rw [show parse_hex (trimChars ("#fff").data) =
    some (Color.new 255 255 255 1 "") from by decide]

/-- Witness for C10 at the concrete input `"#fff"`. -/
theorem parse_never_assigns_identity_witness :
    (Color.new 255 255 255 1 "").id = 0 ∧
      (Color.new 255 255 255 1 "").label = "" :=
  parse_never_assigns_identity ("#fff") (Color.new 255 255 255 1 "")
    parse_hash_fff_eval

/-- C6: on a 3-digit hex input (with or without the leading `#`, exactly
three case-insensitive hex digits, anchored) each nibble is duplicated into
a byte (value 17·nibble) and alpha is 1.0; in particular
`Color::parse("#F53")` yields (255, 85, 51, 1.0).  On a 4-digit input the
4th duplicated nibble becomes the alpha byte, normalized as byte/255 (and
`Color::new`'s clamp leaves that alpha untouched since it lies in [0,1]). -/
theorem hex_nibble_duplication :
    (∀ c1 c2 c3 : Char, isHexDigitC c1 = true → isHexDigitC c2 = true →
      isHexDigitC c3 = true →
      parse_hex ['#', c1, c2, c3] =
        some (Color.new (17 * hexVal c1) (17 * hexVal c2) (17 * hexVal c3) 1 "") ∧
      parse_hex [c1, c2, c3] =
        some (Color.new (17 * hexVal c1) (17 * hexVal c2) (17 * hexVal c3) 1 "")) ∧
    (∀ c1 c2 c3 c4 : Char, isHexDigitC c1 = true → isHexDigitC c2 = true →
      isHexDigitC c3 = true → isHexDigitC c4 = true →
      parse_hex ['#', c1, c2, c3, c4] =
        some (Color.new (17 * hexVal c1) (17 * hexVal c2) (17 * hexVal c3)
          ((17 * hexVal c4 : ℚ) / 255) "") ∧
      parse_hex [c1, c2, c3, c4] =
        some (Color.new (17 * hexVal c1) (17 * hexVal c2) (17 * hexVal c3)
          ((17 * hexVal c4 : ℚ) / 255) "")) ∧
    (∀ n : ℕ, n ≤ 15 → ∀ r g b : ℕ,
      (Color.new r g b ((17 * n : ℚ) / 255) "").a = (17 * n : ℚ) / 255) ∧
    Color.parse ("#F53") = .ok (Color.new 255 85 51 1 "") := by
  refine ⟨?_, ?_, ?_, ?_⟩
  · intro c1 c2 c3 h1 h2 h3
    constructor <;>
      simp [parse_hex, hexCaps, hexBody_hash, hexBody_ne _ (hex_digit_ne_hash h1),
        h1, h2, h3]
  · intro c1 c2 c3 c4 h1 h2 h3 h4
    constructor <;>
      simp [parse_hex, hexCaps, hexBody_hash, hexBody_ne _ (hex_digit_ne_hash h1),
        h1, h2, h3, h4]
  · intro n hn r g b
    have h0 : (0 : ℚ) ≤ (17 * n : ℚ) / 255 := by positivity
    have h1 : ((17 * n : ℚ)) / 255 ≤ 1 := by
      rw [div_le_one (by norm_num)]
      have : (n : ℚ) ≤ 15 := by exact_mod_cast hn
      linarith
    simp [Color.new, qclamp, max_eq_left h0, min_eq_left, h0, h1]
  · rw [color_parse_cases]
    rw [show parse_hex (trimChars ("#F53").data) =
      some (Color.new 255 85 51 1 "") from by decide]

/-- Witness for C6: the theorem instantiated at the digits `F`, `5`, `3`
(and the alpha-clamp conjunct at nibble value 10). -/
theorem hex_nibble_duplication_witness :
    parse_hex ['#', 'F', '5', '3'] =
      some (Color.new (17 * hexVal 'F') (17 * hexVal '5') (17 * hexVal '3') 1 "") ∧
    (Color.new 0 0 0 ((17 * 10 : ℚ) / 255) "").a = (17 * 10 : ℚ) / 255 :=
  ⟨(hex_nibble_duplication.1 'F' '5' '3' (by decide) (by decide) (by decide)).1,
    hex_nibble_duplication.2.2.1 10 (by norm_num) 0 0 0⟩

/-- Counterexample to C3 as stated: on `"rgb(999, 0, 0, 1.2.3)"` the
rgb/rgba grammar matches and the alpha component `1.2.3` is present but
fails to parse as a float, yet parsing *does* fail (the red component 999
does not fit in a `u8`), so the color is not returned successfully. -/
theorem alpha_fallback_counterexample :
    rgbCaps (trimChars ("rgb(999, 0, 0, 1.2.3)").data) =
      some ((['9', '9', '9'], ['0'], ['0']), some ['1', '.', '2', '.', '3']) ∧
    floatParse ['1', '.', '2', '.', '3'] = none ∧
    Color.parse ("rgb(999, 0, 0, 1.2.3)") =
      .error (.InvalidFormat ("rgb(999, 0, 0, 1.2.3)")) := by
  refine ⟨by decide, by decide, ?_⟩
  rw [color_parse_cases]
  rw [show parse_hex (trimChars ("rgb(999, 0, 0, 1.2.3)").data) = none from by decide]
  rw [show parse_rgb (trimChars ("rgb(999, 0, 0, 1.2.3)").data) = none from by decide]
  rw [show parse_hsl (trimChars ("rgb(999, 0, 0, 1.2.3)").data) = none from by decide]
  rw [parse_oklch_of_caps_none (by decide)]
  rfl

/-- C3 (amended): for every rgb/rgba, hsl/hsla, or oklch input whose
grammar matches, whose non-alpha components parse successfully and pass the
range validation, and whose alpha component is present but fails to parse
as a float, parsing does not fail: the alpha is silently replaced by 1.0
(fully opaque) and the color is returned successfully. -/
theorem alpha_fallback_amended :
    (∀ l d1 d2 d3 m r g b, rgbCaps l = some ((d1, d2, d3), some m) →
      floatParse m = none →
      u8parse d1 = some r → u8parse d2 = some g → u8parse d3 = some b →
      parse_rgb l = some (Color.new r g b 1 "")) ∧
    (∀ l d1 d2 d3 m hv sv lv, hslCaps l = some ((d1, d2, d3), some m) →
      floatParse m = none →
      floatParse d1 = some hv → floatParse d2 = some sv →
      floatParse d3 = some lv →
      ¬(hv > 360 ∨ sv / 100 > 1 ∨ lv / 100 > 1) →
      ∃ c, parse_hsl l = some c ∧ c.a = 1) ∧
    (∀ l d1 d2 d3 m lv cv hv, oklchCaps l = some ((d1, d2, d3), some m) →
      floatParse m = none →
      floatParse d1 = some lv → floatParse d2 = some cv →
      floatParse d3 = some hv →
      ¬(lv / 100 > 1 ∨ hv > 360) →
      ∃ c, parse_oklch l = some c ∧ c.a = 1) := by
  have ha1 : qclamp 1 0 1 = 1 := by
    simp [qclamp]
  refine ⟨?_, ?_, ?_⟩
  · intro l d1 d2 d3 m r g b hcaps hm hr hg hb
    simp [parse_rgb, bind, hcaps, hm, hr, hg, hb]
  · intro l d1 d2 d3 m hv sv lv hcaps hm h1 h2 h3 hrange
    refine ⟨Color.new (hsl_to_rgb hv (sv / 100) (lv / 100)).1
      (hsl_to_rgb hv (sv / 100) (lv / 100)).2.1
      (hsl_to_rgb hv (sv / 100) (lv / 100)).2.2 1 "", ?_, ?_⟩
    · simp [parse_hsl, bind, hcaps, hm, h1, h2, h3, hrange]
    · simp [Color.new, ha1]
  · intro l d1 d2 d3 m lv cv hv hcaps hm h1 h2 h3 hrange
    refine ⟨Color.new (oklch_to_rgb ((lv / 100 : ℚ) : ℝ) ((cv : ℚ) : ℝ) ((hv : ℚ) : ℝ)).1
      (oklch_to_rgb ((lv / 100 : ℚ) : ℝ) ((cv : ℚ) : ℝ) ((hv : ℚ) : ℝ)).2.1
      (oklch_to_rgb ((lv / 100 : ℚ) : ℝ) ((cv : ℚ) : ℝ) ((hv : ℚ) : ℝ)).2.2 1 "", ?_, ?_⟩
    · unfold parse_oklch
      rw [hcaps]
      dsimp only
      rw [h1, h2, h3]
      simp [hm, hrange]
    · simp [Color.new, ha1]

/-- Witness for C3 (amended): the input `"rgba(1, 2, 3, 1.2.3)"` has a
well-formed body, a malformed alpha, and parses to (1, 2, 3) with alpha 1. -/
theorem alpha_fallback_amended_witness :
    parse_rgb (trimChars ("rgba(1, 2, 3, 1.2.3)").data) =
      some (Color.new 1 2 3 1 "") :=
  alpha_fallback_amended.1 (trimChars ("rgba(1, 2, 3, 1.2.3)").data)
    ['1'] ['2'] ['3'] ['1', '.', '2', '.', '3'] 1 2 3
    (by decide) (by decide) (by decide) (by decide) (by decide)

/-- C5: an hsl/hsla input whose grammar matches but whose components are
out of range (h > 360, or s > 1 after dividing by 100, or l > 1 after
dividing by 100) silently yields no result, as does an oklch input with
normalized L > 1 or H > 360; the parse chain then falls through to the next
candidate, and a caller of `Color::parse` only ever sees either a success
or `InvalidFormat` carrying the trimmed input — never a range-specific
diagnostic. -/
theorem out_of_range_falls_through :
    (∀ l d1 d2 d3 aOpt hv sv lv, hslCaps l = some ((d1, d2, d3), aOpt) →
      floatParse d1 = some hv → floatParse d2 = some sv →
      floatParse d3 = some lv →
      (hv > 360 ∨ sv / 100 > 1 ∨ lv / 100 > 1) →
      parse_hsl l = none) ∧
    (∀ l d1 d2 d3 aOpt lv cv hv, oklchCaps l = some ((d1, d2, d3), aOpt) →
      floatParse d1 = some lv → floatParse d2 = some cv →
      floatParse d3 = some hv →
      (lv / 100 > 1 ∨ hv > 360) →
      parse_oklch l = none) ∧
    (∀ s : String, (∃ c, Color.parse s = .ok c) ∨
      Color.parse s = .error (.InvalidFormat (String.mk (trimChars s.data)))) := by
  refine ⟨?_, ?_, ?_⟩
  · intro l d1 d2 d3 aOpt hv sv lv hcaps h1 h2 h3 hrange
    simp [parse_hsl, bind, hcaps, h1, h2, h3, hrange]
  · intro l d1 d2 d3 aOpt lv cv hv hcaps h1 h2 h3 hrange
    unfold parse_oklch
    rw [hcaps]
    dsimp only
    rw [h1, h2, h3]
    simp [hrange]
  · intro s
    rw [color_parse_cases]
    split
    · exact Or.inl ⟨_, rfl⟩
    · exact Or.inl ⟨_, rfl⟩
    · exact Or.inl ⟨_, rfl⟩
    · exact Or.inl ⟨_, rfl⟩
    · exact Or.inr rfl

/-- Witness for C5: `"hsl(400, 50%, 50%)"` (hue 400 > 360) and
`"oklch(200% 3 30)"` (lightness 200% > 1) both fall through. -/
theorem out_of_range_falls_through_witness :
    parse_hsl (trimChars ("hsl(400, 50%, 50%)").data) = none ∧
    parse_oklch (trimChars ("oklch(200% 3 30)").data) = none := by
  have e400 : floatParse ['4', '0', '0'] = some 400 := by
    rw [floatParse_digits (by decide) (by decide)]
    norm_num [show natOfDigits ['4', '0', '0'] = 400 from by decide]
  have e50 : floatParse ['5', '0'] = some 50 := by
    rw [floatParse_digits (by decide) (by decide)]
    norm_num [show natOfDigits ['5', '0'] = 50 from by decide]
  have e200 : floatParse ['2', '0', '0'] = some 200 := by
    rw [floatParse_digits (by decide) (by decide)]
    norm_num [show natOfDigits ['2', '0', '0'] = 200 from by decide]
  have e3 : floatParse ['3'] = some 3 := by
    rw [floatParse_digits (by decide) (by decide)]
    norm_num [show natOfDigits ['3'] = 3 from by decide]
  have e30 : floatParse ['3', '0'] = some 30 := by
    rw [floatParse_digits (by decide) (by decide)]
    norm_num [show natOfDigits ['3', '0'] = 30 from by decide]
  constructor
  · exact out_of_range_falls_through.1 _ ['4', '0', '0'] ['5', '0'] ['5', '0']
      none 400 50 50 (by decide) e400 e50 e50 (Or.inl (by norm_num))
  · exact out_of_range_falls_through.2.1 _ ['2', '0', '0'] ['3'] ['3', '0']
      none 200 3 30 (by decide) e200 e3 e30 (Or.inl (by norm_num))

/-- C9: `to_hex` emits `#RRGGBB` (uppercase hex digits, zero-padded to two
digits per byte) when the alpha is within `f32::EPSILON` of 1.0, and
otherwise `#RRGGBBAA` with alpha byte `round(a·255)`; each byte prints as
exactly two uppercase hex characters, and `to_hex` of
`Color::new(255, 87, 51, 1.0)` is `"#FF5733"`. -/
theorem to_hex_format (c : Color) :
    (|c.a - 1| < f32eps → c.to_hex =
      String.mk ('#' :: (byteHex c.r ++ byteHex c.g ++ byteHex c.b))) ∧
    (¬(|c.a - 1| < f32eps) → c.to_hex =
      String.mk ('#' :: (byteHex c.r ++ byteHex c.g ++ byteHex c.b ++
        byteHex (u8cast (rustRound (c.a * 255)))))) ∧
    (∀ n : ℕ, n ≤ 255 → (byteHex n).length = 2 ∧
      ∀ d ∈ byteHex n, d.isDigit = true ∨ ('A' ≤ d ∧ d ≤ 'F')) ∧
    (Color.new 255 87 51 1 "").to_hex = "#FF5733" := by
  have hdig : ∀ k : ℕ, k < 16 →
      (hexDigitU k).isDigit = true ∨ ('A' ≤ hexDigitU k ∧ hexDigitU k ≤ 'F') := by
    intro k hk
    interval_cases k <;> decide
  refine ⟨?_, ?_, ?_, ?_⟩
  · intro h
    simp [Color.to_hex, h]
  · intro h
    simp [Color.to_hex, h]
  · intro n hn
    refine ⟨rfl, ?_⟩
    intro d hd
    simp only [byteHex, List.mem_cons, List.not_mem_nil, or_false] at hd
    rcases hd with rfl | rfl
    · exact hdig (n / 16) (Nat.div_lt_of_lt_mul (by omega))
    · exact hdig (n % 16) (Nat.mod_lt _ (by norm_num))
  · have ha : (Color.new 255 87 51 1 "").a = 1 := by simp [Color.new, qclamp]
    have hcond : |(Color.new 255 87 51 1 "").a - 1| < f32eps := by
      rw [ha]
      norm_num [f32eps]
    rw [Color.to_hex, if_pos hcond]
    decide

/-- Witness for C9: the opaque branch at the concrete color (1, 2, 3, 1.0)
yields the zero-padded uppercase serialization `#010203`. -/
theorem to_hex_format_witness : (Color.new 1 2 3 1 "").to_hex = "#010203" := by
  rw [(to_hex_format (Color.new 1 2 3 1 "")).1
    (by norm_num [Color.new, qclamp, f32eps])]
  decide

/-- Evaluation of `Color::parse` on `"#FF5733"`. -/
theorem parse_ff5733_eval :
    Color.parse ("#FF5733") = .ok (Color.new 255 87 51 1 "") := by
  rw [color_parse_cases]
  rw [show parse_hex (trimChars ("#FF5733").data) =
    some (Color.new 255 87 51 1 "") from by decide]

/-- Evaluation of `Color::parse` on `"rgb(0, 128, 255)"`. -/
theorem parse_rgb_0_128_255_eval :
    Color.parse ("rgb(0, 128, 255)") = .ok (Color.new 0 128 255 1 "") := by
  rw [color_parse_cases]
  rw [show parse_hex (trimChars ("rgb(0, 128, 255)").data) = none from by decide]
  rw [show parse_rgb (trimChars ("rgb(0, 128, 255)").data) =
    some (Color.new 0 128 255 1 "") from by decide]

/-- Evaluation of `Color::parse` on `"rgb(255, 87, 51)"`. -/
theorem parse_rgb_255_87_51_eval :
    Color.parse ("rgb(255, 87, 51)") = .ok (Color.new 255 87 51 1 "") := by
  rw [color_parse_cases]
  rw [show parse_hex (trimChars ("rgb(255, 87, 51)").data) = none from by decide]
  rw [show parse_rgb (trimChars ("rgb(255, 87, 51)").data) =
    some (Color.new 255 87 51 1 "") from by decide]

/-- Evaluation of `Color::parse` on `"hsl(120, 50%, 50%)"`: a 50% green. -/
theorem parse_hsl_120_eval :
    Color.parse ("hsl(120, 50%, 50%)") = .ok (Color.new 64 191 64 1 "") := by
  have e120 : floatParse ['1', '2', '0'] = some 120 := by
    rw [floatParse_digits (by decide) (by decide)]
    norm_num [show natOfDigits ['1', '2', '0'] = 120 from by decide]
  have e50 : floatParse ['5', '0'] = some 50 := by
    rw [floatParse_digits (by decide) (by decide)]
    norm_num [show natOfDigits ['5', '0'] = 50 from by decide]
  have hr : hsl_to_rgb 120 (50 / 100) (50 / 100) = (64, 191, 64) := by
    norm_num [hsl_to_rgb, hue_to_rgb, rustRound, u8cast]
    decide
  have hp : parse_hsl (trimChars ("hsl(120, 50%, 50%)").data) =
      some (Color.new 64 191 64 1 "") := by
    unfold parse_hsl
    rw [show hslCaps (trimChars ("hsl(120, 50%, 50%)").data) =
      some ((['1', '2', '0'], ['5', '0'], ['5', '0']), none) from by decide]
    dsimp only [bind, Option.bind]
    rw [e120, e50]
    dsimp only [Option.bind]
    rw [if_neg (by norm_num), hr]
    rfl
  rw [color_parse_cases]
  rw [show parse_hex (trimChars ("hsl(120, 50%, 50%)").data) = none from by decide]
  rw [show parse_rgb (trimChars ("hsl(120, 50%, 50%)").data) = none from by decide]
  rw [hp]

/-- C4: `extract_colors_from_text` performs four independent scans in the
fixed order hex → rgb → hsl → oklch, re-parses every match through
`Color::parse`, silently drops failing matches (never returning an error),
orders the result by scan pass, and does not deduplicate.  On
`"Colors: #FF5733 and rgb(0, 128, 255) and hsl(120, 50%, 50%)"` it returns
exactly 3 colors in hex → rgb → hsl order; on
`"#FF5733 rgb(255, 87, 51)"` it returns the same color twice; and on
`"rgb(999, 0, 0) and #FF5733"` the scanned rgb match fails to re-parse and
is silently dropped, leaving only the hex color. -/
theorem extract_scan_passes :
    (∀ text : String, extract_colors_from_text text =
      extractPass (scanHexL text.data) ++ extractPass (scanRgbL text.data) ++
        extractPass (scanHslL text.data) ++ extractPass (scanOklchL text.data)) ∧
    extract_colors_from_text
        ("Colors: #FF5733 and rgb(0, 128, 255) and hsl(120, 50%, 50%)") =
      [Color.new 255 87 51 1 "", Color.new 0 128 255 1 "",
        Color.new 64 191 64 1 ""] ∧
    extract_colors_from_text ("#FF5733 rgb(255, 87, 51)") =
      [Color.new 255 87 51 1 "", Color.new 255 87 51 1 ""] ∧
    extract_colors_from_text ("rgb(999, 0, 0) and #FF5733") =
      [Color.new 255 87 51 1 ""] := by
  have perr : Color.parse ("rgb(999, 0, 0)") =
      .error (.InvalidFormat ("rgb(999, 0, 0)")) := by
    rw [color_parse_cases]
    rw [show parse_hex (trimChars ("rgb(999, 0, 0)").data) = none from by decide]
    rw [show parse_rgb (trimChars ("rgb(999, 0, 0)").data) = none from by decide]
    rw [show parse_hsl (trimChars ("rgb(999, 0, 0)").data) = none from by decide]
    rw [parse_oklch_of_caps_none (by decide)]
    rfl
  refine ⟨?_, ?_, ?_, ?_⟩
  · intro text
    simp [extract_colors_from_text]
  · rw [show extract_colors_from_text
        ("Colors: #FF5733 and rgb(0, 128, 255) and hsl(120, 50%, 50%)") =
      extractPass (scanHexL (("Colors: #FF5733 and rgb(0, 128, 255) and hsl(120, 50%, 50%)").data)) ++
        extractPass (scanRgbL (("Colors: #FF5733 and rgb(0, 128, 255) and hsl(120, 50%, 50%)").data)) ++
        extractPass (scanHslL (("Colors: #FF5733 and rgb(0, 128, 255) and hsl(120, 50%, 50%)").data)) ++
        extractPass (scanOklchL (("Colors: #FF5733 and rgb(0, 128, 255) and hsl(120, 50%, 50%)").data))
      from by simp [extract_colors_from_text]]
    rw [show scanHexL (("Colors: #FF5733 and rgb(0, 128, 255) and hsl(120, 50%, 50%)").data) =
      [['#', 'F', 'F', '5', '7', '3', '3']] from by decide]
    rw [show scanRgbL (("Colors: #FF5733 and rgb(0, 128, 255) and hsl(120, 50%, 50%)").data) =
      [("rgb(0, 128, 255)").data] from by decide]
    rw [show scanHslL (("Colors: #FF5733 and rgb(0, 128, 255) and hsl(120, 50%, 50%)").data) =
      [("hsl(120, 50%, 50%)").data] from by decide]
    rw [show scanOklchL (("Colors: #FF5733 and rgb(0, 128, 255) and hsl(120, 50%, 50%)").data) =
      [] from by decide]
    simp only [extractPass, List.filterMap_cons, List.filterMap_nil]
    rw [show String.mk ['#', 'F', 'F', '5', '7', '3', '3'] = ("#FF5733") from by decide]
    rw [show String.mk (("rgb(0, 128, 255)").data) = ("rgb(0, 128, 255)") from by decide]
    rw [show String.mk (("hsl(120, 50%, 50%)").data) = ("hsl(120, 50%, 50%)") from by decide]
    rw [parse_ff5733_eval, parse_rgb_0_128_255_eval, parse_hsl_120_eval]
    simp [Except.toOption]
  · rw [show extract_colors_from_text ("#FF5733 rgb(255, 87, 51)") =
      extractPass (scanHexL (("#FF5733 rgb(255, 87, 51)").data)) ++
        extractPass (scanRgbL (("#FF5733 rgb(255, 87, 51)").data)) ++
        extractPass (scanHslL (("#FF5733 rgb(255, 87, 51)").data)) ++
        extractPass (scanOklchL (("#FF5733 rgb(255, 87, 51)").data))
      from by simp [extract_colors_from_text]]
    rw [show scanHexL (("#FF5733 rgb(255, 87, 51)").data) =
      [['#', 'F', 'F', '5', '7', '3', '3']] from by decide]
    rw [show scanRgbL (("#FF5733 rgb(255, 87, 51)").data) =
      [("rgb(255, 87, 51)").data] from by decide]
    rw [show scanHslL (("#FF5733 rgb(255, 87, 51)").data) = [] from by decide]
    rw [show scanOklchL (("#FF5733 rgb(255, 87, 51)").data) = [] from by decide]
    simp only [extractPass, List.filterMap_cons, List.filterMap_nil]
    rw [show String.mk ['#', 'F', 'F', '5', '7', '3', '3'] = ("#FF5733") from by decide]
    rw [show String.mk (("rgb(255, 87, 51)").data) = ("rgb(255, 87, 51)") from by decide]
    rw [parse_ff5733_eval, parse_rgb_255_87_51_eval]
    simp [Except.toOption]
  · rw [show extract_colors_from_text ("rgb(999, 0, 0) and #FF5733") =
      extractPass (scanHexL (("rgb(999, 0, 0) and #FF5733").data)) ++
        extractPass (scanRgbL (("rgb(999, 0, 0) and #FF5733").data)) ++
        extractPass (scanHslL (("rgb(999, 0, 0) and #FF5733").data)) ++
        extractPass (scanOklchL (("rgb(999, 0, 0) and #FF5733").data))
      from by simp [extract_colors_from_text]]
    rw [show scanHexL (("rgb(999, 0, 0) and #FF5733").data) =
      [['#', 'F', 'F', '5', '7', '3', '3']] from by decide]
    rw [show scanRgbL (("rgb(999, 0, 0) and #FF5733").data) =
      [("rgb(999, 0, 0)").data] from by decide]
    rw [show scanHslL (("rgb(999, 0, 0) and #FF5733").data) = [] from by decide]
    rw [show scanOklchL (("rgb(999, 0, 0) and #FF5733").data) = [] from by decide]
    simp only [extractPass, List.filterMap_cons, List.filterMap_nil]
    rw [show String.mk ['#', 'F', 'F', '5', '7', '3', '3'] = ("#FF5733") from by decide]
    rw [show String.mk (("rgb(999, 0, 0)").data) = ("rgb(999, 0, 0)") from by decide]
    rw [parse_ff5733_eval, perr]
    simp [Except.toOption]

/-- The sRGB encoding exponent `1/2.4` written as the rational `5/12`. -/
theorem one_div_24 : ((1 : ℝ) / 2.4) = 5 / 12 := by norm_num

/-- On the power branch (x above the sRGB linear threshold) the encoded
value is nonnegative: `x^(1/2.4) ≥ 11/211 = 0.055/1.055`. -/
theorem srgb_pow_lower {x : ℝ} (hx : 0.0031308 < x) :
    (11 : ℝ) / 211 ≤ x ^ ((1 : ℝ) / 2.4) := by
  rw [one_div_24]
  have hq0 : (0 : ℝ) < 11 / 211 := by norm_num
  have h1 : ((11 : ℝ) / 211) ^ ((12 : ℝ) / 5) ≤ x := by
    have h2 : ((11 : ℝ) / 211) ^ ((12 : ℝ) / 5) ≤ ((11 : ℝ) / 211) ^ ((2 : ℕ) : ℝ) := by
      apply Real.rpow_le_rpow_of_exponent_ge hq0 (by norm_num)
      norm_num
    rw [Real.rpow_natCast] at h2
    calc ((11 : ℝ) / 211) ^ ((12 : ℝ) / 5) ≤ ((11 : ℝ) / 211) ^ (2 : ℕ) := h2
      _ ≤ 0.0031308 := by norm_num
      _ ≤ x := le_of_lt hx
  have h3 := Real.rpow_le_rpow (Real.rpow_nonneg (le_of_lt hq0) _) h1
    (by norm_num : (0 : ℝ) ≤ 5 / 12)
  rw [← Real.rpow_mul (le_of_lt hq0)] at h3
  norm_num at h3
  exact h3

/-- Clamping to [0,1] commutes with the sRGB gamma encoding: encoding then
clamping (what the source does) equals clamping the linear channel first and
then encoding (what the spec describes). -/
theorem rclamp01_linear_to_srgb (x : ℝ) :
    rclamp01 (linear_to_srgb x) = linear_to_srgb (rclamp01 x) := by
  have hth : (0.0031308 : ℝ) < 1 := by norm_num
  rcases le_or_lt x 0 with hx0 | hx0
  · have hcl : rclamp01 x = 0 := by
      rw [rclamp01, max_eq_right hx0]
      exact min_eq_left (by norm_num)
    rw [hcl]
    have hv : linear_to_srgb x = x * 12.92 := by
      rw [linear_to_srgb, if_pos (by linarith : x ≤ 0.0031308)]
    have h0 : linear_to_srgb 0 = 0 := by
      rw [linear_to_srgb, if_pos (by norm_num : (0 : ℝ) ≤ 0.0031308)]
      ring
    rw [hv, h0, rclamp01, max_eq_right (by nlinarith)]
    exact min_eq_left (by norm_num)
  · rcases le_or_lt x 1 with hx1 | hx1
    · have hcl : rclamp01 x = x := by
        rw [rclamp01, max_eq_left (le_of_lt hx0)]
        exact min_eq_left hx1
      rw [hcl]
      have hrange : 0 ≤ linear_to_srgb x ∧ linear_to_srgb x ≤ 1 := by
        rw [linear_to_srgb]
        split
        · constructor
          · nlinarith
          · next hb => nlinarith
        · next hb =>
          push_neg at hb
          constructor
          · have := srgb_pow_lower hb
            nlinarith
          · have hle : x ^ ((1 : ℝ) / 2.4) ≤ 1 :=
              Real.rpow_le_one (le_of_lt hx0) hx1 (by norm_num)
            nlinarith
      rw [rclamp01, max_eq_left hrange.1]
      exact min_eq_left hrange.2
    · have hcl : rclamp01 x = 1 := by
        rw [rclamp01, max_eq_left (by linarith)]
        exact min_eq_right (le_of_lt hx1)
      rw [hcl]
      have h1v : linear_to_srgb 1 = 1 := by
        rw [linear_to_srgb, if_neg (by norm_num)]
        rw [Real.one_rpow]
        norm_num
      have hge : 1 ≤ linear_to_srgb x := by
        rw [linear_to_srgb, if_neg (by push_neg; linarith)]
        have : (1 : ℝ) ≤ x ^ ((1 : ℝ) / 2.4) :=
          Real.one_le_rpow (le_of_lt hx1) (by norm_num)
        nlinarith
      rw [h1v, rclamp01, max_eq_left (by linarith)]
      exact min_eq_right hge

/-- `rclamp01` lands in [0,1]. -/
theorem rclamp01_mem (x : ℝ) : 0 ≤ rclamp01 x ∧ rclamp01 x ≤ 1 :=
  ⟨le_min (le_max_right _ _) (by norm_num), min_le_right _ _⟩

/-- Rounding a clamped, 255-scaled channel stays inside [0, 255]. -/
theorem rustRound_channel_mem (y : ℝ) (h0 : 0 ≤ y) (h1 : y ≤ 1) :
    0 ≤ rustRound (y * 255) ∧ rustRound (y * 255) ≤ 255 := by
  have hy0 : (0 : ℝ) ≤ y * 255 := by nlinarith
  rw [rustRound, if_pos hy0]
  constructor
  · have : (0 : ℤ) = ⌊(1 : ℝ) / 2⌋ := by norm_num
    rw [this]
    exact Int.floor_le_floor (by linarith)
  · have : (255 : ℤ) = ⌊(255 : ℝ) + 1 / 2⌋ := by norm_num
    rw [this]
    exact Int.floor_le_floor (by nlinarith)

/-- The saturating byte cast is lossless on [0, 255]. -/
theorem u8cast_of_mem {z : ℤ} (h0 : 0 ≤ z) (h1 : z ≤ 255) :
    u8cast z = z.toNat := by
  rw [u8cast, max_eq_left h0, min_eq_left h1]

/-- The saturating byte cast never exceeds 255. -/
theorem u8cast_le (z : ℤ) : u8cast z ≤ 255 := by
  rw [u8cast]
  have : min (max z 0) 255 ≤ 255 := min_le_right _ _
  omega

/-- C7: `oklch_to_rgb` is the composite "clamp each linear channel to
[0,1], apply the sRGB encoding, scale by 255, round to nearest, narrow to a
byte" described by the spec (the source encodes before clamping, but the two
orders agree), the rounded value already lies in [0, 255] so the narrowing
cast never saturates, and the output channels are always valid 8-bit
values. -/
theorem oklch_to_rgb_bytes :
    (∀ l c h : ℝ, oklch_to_rgb l c h = oklch_to_rgb_clampfirst l c h) ∧
    (∀ x : ℝ, 0 ≤ rustRound (rclamp01 (linear_to_srgb x) * 255) ∧
      rustRound (rclamp01 (linear_to_srgb x) * 255) ≤ 255 ∧
      u8cast (rustRound (rclamp01 (linear_to_srgb x) * 255)) =
        (rustRound (rclamp01 (linear_to_srgb x) * 255)).toNat) ∧
    (∀ l c h : ℝ, (oklch_to_rgb l c h).1 ≤ 255 ∧
      (oklch_to_rgb l c h).2.1 ≤ 255 ∧ (oklch_to_rgb l c h).2.2 ≤ 255) := by
  refine ⟨?_, ?_, ?_⟩
  · intro l c h
    simp only [oklch_to_rgb, oklch_to_rgb_clampfirst, rclamp01_linear_to_srgb]
  · intro x
    obtain ⟨h0, h1⟩ := rclamp01_mem (linear_to_srgb x)
    obtain ⟨hr0, hr1⟩ := rustRound_channel_mem _ h0 h1
    exact ⟨hr0, hr1, u8cast_of_mem hr0 hr1⟩
  · intro l c h
    exact ⟨u8cast_le _, u8cast_le _, u8cast_le _⟩

/-- Ranges of `rgb_to_hsl`: hue in [0, 360), saturation and lightness in
[0, 1], for every byte triple. -/
theorem rgb_to_hsl_mem (r g b : ℕ) (hr : r ≤ 255) (hg : g ≤ 255)
    (hb : b ≤ 255) :
    (0 ≤ (rgb_to_hsl r g b).1 ∧ (rgb_to_hsl r g b).1 < 360) ∧
    (0 ≤ (rgb_to_hsl r g b).2.1 ∧ (rgb_to_hsl r g b).2.1 ≤ 1) ∧
    (0 ≤ (rgb_to_hsl r g b).2.2 ∧ (rgb_to_hsl r g b).2.2 ≤ 1) := by
  have ha : 0 ≤ (r : ℚ) / 255 ∧ (r : ℚ) / 255 ≤ 1 := by
    constructor
    · positivity
    · rw [div_le_one (by norm_num)]
      exact_mod_cast hr
  have hbq : 0 ≤ (g : ℚ) / 255 ∧ (g : ℚ) / 255 ≤ 1 := by
    constructor
    · positivity
    · rw [div_le_one (by norm_num)]
      exact_mod_cast hg
  have hcq : 0 ≤ (b : ℚ) / 255 ∧ (b : ℚ) / 255 ≤ 1 := by
    constructor
    · positivity
    · rw [div_le_one (by norm_num)]
      exact_mod_cast hb
  simp only [rgb_to_hsl]
  set a : ℚ := (r : ℚ) / 255 with hadef
  set p : ℚ := (g : ℚ) / 255 with hpdef
  set q : ℚ := (b : ℚ) / 255 with hqdef
  set mx : ℚ := max (max a p) q with hmxdef
  set mn : ℚ := min (min a p) q with hmndef
  have hmn_mx : mn ≤ mx :=
    le_trans (le_trans (min_le_left _ _) (min_le_left _ _))
      (le_trans (le_max_left _ _) (le_max_left _ _))
  have hmx1 : mx ≤ 1 := max_le (max_le ha.2 hbq.2) hcq.2
  have hmn0 : 0 ≤ mn := le_min (le_min ha.1 hbq.1) hcq.1
  have hamem : mn ≤ a ∧ a ≤ mx :=
    ⟨le_trans (min_le_left _ _) (min_le_left _ _),
      le_trans (le_max_left _ _) (le_max_left _ _)⟩
  have hpmem : mn ≤ p ∧ p ≤ mx :=
    ⟨le_trans (min_le_left _ _) (min_le_right _ _),
      le_trans (le_max_right _ _) (le_max_left _ _)⟩
  have hqmem : mn ≤ q ∧ q ≤ mx :=
    ⟨min_le_right _ _, le_max_right _ _⟩
  by_cases heps : |mx - mn| < f32eps
  · rw [if_pos heps]
    refine ⟨⟨le_refl 0, by norm_num⟩, ⟨le_refl 0, by norm_num⟩, ?_, ?_⟩
    · linarith
    · linarith
  · rw [if_neg heps]
    dsimp only
    have hepspos : (0 : ℚ) < f32eps := by norm_num [f32eps]
    have hd : 0 < mx - mn := by
      rw [abs_of_nonneg (sub_nonneg.mpr hmn_mx)] at heps
      push_neg at heps
      linarith
    refine ⟨?_, ?_, ?_⟩
    · -- hue bounds
      have key : 0 ≤ (if |mx - a| < f32eps then
            (p - q) / (mx - mn) + (if p < q then 6 else 0)
          else if |mx - p| < f32eps then (q - a) / (mx - mn) + 2
          else (a - p) / (mx - mn) + 4) ∧
          (if |mx - a| < f32eps then
            (p - q) / (mx - mn) + (if p < q then 6 else 0)
          else if |mx - p| < f32eps then (q - a) / (mx - mn) + 2
          else (a - p) / (mx - mn) + 4) < 6 := by
        split_ifs with hmr hgb hmg
        · -- max is red, green < blue: value in [5, 6)
          have hlo : (-1 : ℚ) ≤ (p - q) / (mx - mn) := by
            rw [le_div_iff hd]
            linarith [hpmem.1, hqmem.2]
          have hhi : (p - q) / (mx - mn) < 0 :=
            div_neg_of_neg_of_pos (by linarith) hd
          constructor <;> linarith
        · -- max is red, green ≥ blue: value in [0, 1]
          push_neg at hgb
          have hlo : 0 ≤ (p - q) / (mx - mn) :=
            div_nonneg (by linarith) (le_of_lt hd)
          have hhi : (p - q) / (mx - mn) ≤ 1 := by
            rw [div_le_one hd]
            linarith [hpmem.2, hqmem.1]
          constructor <;> linarith
        · -- max is green: value in [1, 3]
          have hlo : (-1 : ℚ) ≤ (q - a) / (mx - mn) := by
            rw [le_div_iff hd]
            linarith [hqmem.1, hamem.2]
          have hhi : (q - a) / (mx - mn) ≤ 1 := by
            rw [div_le_one hd]
            linarith [hqmem.2, hamem.1]
          constructor <;> linarith
        · -- max is blue: value in [3, 5]
          have hlo : (-1 : ℚ) ≤ (a - p) / (mx - mn) := by
            rw [le_div_iff hd]
            linarith [hamem.1, hpmem.2]
          have hhi : (a - p) / (mx - mn) ≤ 1 := by
            rw [div_le_one hd]
            linarith [hamem.2, hpmem.1]
          constructor <;> linarith
      constructor
      · linarith [key.1]
      · linarith [key.2]
    · -- saturation bounds
      split_ifs with hl
      · have hdenom : 0 < 2 - mx - mn := by linarith
        constructor
        · exact div_nonneg (le_of_lt hd) (le_of_lt hdenom)
        · rw [div_le_one hdenom]
          linarith
      · have hdenom : 0 < mx + mn := by
          have hmxpos : 0 < mx := by linarith
          linarith
        constructor
        · exact div_nonneg (le_of_lt hd) (le_of_lt hdenom)
        · rw [div_le_one hdenom]
          linarith
    · -- lightness bounds
      constructor
      · linarith
      · linarith

theorem rcbrt_of_nonneg {x : ℝ} (h : 0 ≤ x) : rcbrt x = x ^ ((1 : ℝ) / 3) := by
  rw [rcbrt, if_neg (not_lt.mpr h)]

theorem rcbrt_nonneg {x : ℝ} (h : 0 ≤ x) : 0 ≤ rcbrt x := by
  rw [rcbrt_of_nonneg h]
  exact Real.rpow_nonneg h _

theorem rcbrt_le_one {x : ℝ} (h0 : 0 ≤ x) (h1 : x ≤ 1) : rcbrt x ≤ 1 := by
  rw [rcbrt_of_nonneg h0]
  exact Real.rpow_le_one h0 h1 (by norm_num)

theorem rcbrt_mono {x y : ℝ} (h0 : 0 ≤ x) (hxy : x ≤ y) :
    rcbrt x ≤ rcbrt y := by
  rw [rcbrt_of_nonneg h0, rcbrt_of_nonneg (h0.trans hxy)]
  exact Real.rpow_le_rpow h0 hxy (by norm_num)

/-- Cube root of `k³·x` is `k` times the cube root of `x` (for `k, x ≥ 0`). -/
theorem rcbrt_cube_mul {k x : ℝ} (hk : 0 ≤ k) (hx : 0 ≤ x) :
    rcbrt (k ^ 3 * x) = k * rcbrt x := by
  rw [rcbrt_of_nonneg (by positivity), rcbrt_of_nonneg hx,
    Real.mul_rpow (by positivity) hx]
  congr 1
  rw [← Real.rpow_natCast k 3, ← Real.rpow_mul hk]
  norm_num

/-- Lower-bound a cube root by exhibiting a cube below the argument. -/
theorem rcbrt_lower {a x : ℝ} (ha : 0 ≤ a) (h : a ^ 3 ≤ x) : a ≤ rcbrt x := by
  have hx : 0 ≤ x := le_trans (by positivity) h
  have : rcbrt (a ^ 3) = a := by
    rw [rcbrt_of_nonneg (by positivity), ← Real.rpow_natCast a 3,
      ← Real.rpow_mul ha]
    norm_num
  rw [← this]
  exact rcbrt_mono (by positivity) h

/-- Upper-bound a cube root by exhibiting a cube above the argument. -/
theorem rcbrt_upper {x b : ℝ} (hx : 0 ≤ x) (hb : 0 ≤ b) (h : x ≤ b ^ 3) :
    rcbrt x ≤ b := by
  have : rcbrt (b ^ 3) = b := by
    rw [rcbrt_of_nonneg (by positivity), ← Real.rpow_natCast b 3,
      ← Real.rpow_mul hb]
    norm_num
  rw [← this]
  exact rcbrt_mono hx h

/-- `srgb_to_linear` maps [0,1] into [0,1]. -/
theorem srgb_to_linear_mem {x : ℝ} (h0 : 0 ≤ x) (h1 : x ≤ 1) :
    0 ≤ srgb_to_linear x ∧ srgb_to_linear x ≤ 1 := by
  rw [srgb_to_linear]
  split
  · refine ⟨div_nonneg h0 (by norm_num), ?_⟩
    rw [div_le_one (by norm_num)]
    linarith
  · next hbr =>
    push_neg at hbr
    have hbase0 : 0 ≤ (x + 0.055) / 1.055 := by positivity
    have hbase1 : (x + 0.055) / 1.055 ≤ 1 := by
      rw [div_le_one (by norm_num)]
      linarith
    exact ⟨Real.rpow_nonneg hbase0 _,
      Real.rpow_le_one hbase0 hbase1 (by norm_num)⟩

theorem srgb_to_linear_one : srgb_to_linear 1 = 1 := by
  rw [srgb_to_linear, if_neg (by norm_num),
    show ((1 : ℝ) + 0.055) / 1.055 = 1 by norm_num, Real.one_rpow]

theorem srgb_to_linear_zero : srgb_to_linear 0 = 0 := by
  rw [srgb_to_linear, if_pos (by norm_num)]
  ring

/-- `(rcbrt t)³ = t` for `t ≥ 0`. -/
theorem rcbrt_cube {t : ℝ} (h : 0 ≤ t) : rcbrt t ^ 3 = t := by
  rw [rcbrt_of_nonneg h, ← Real.rpow_natCast (t ^ ((1 : ℝ) / 3)) 3,
    ← Real.rpow_mul h]
  norm_num

/-- The cube root lies below its tangent line at 1:
`t^(1/3) ≤ (t + 2)/3` for `t ≥ 0`. -/
theorem rcbrt_le_tangent {t : ℝ} (h : 0 ≤ t) : rcbrt t ≤ (t + 2) / 3 := by
  have hu : 0 ≤ rcbrt t := rcbrt_nonneg h
  have hu3 : rcbrt t ^ 3 = t := rcbrt_cube h
  have hkey : 0 ≤ (rcbrt t - 1) ^ 2 * (rcbrt t + 2) :=
    mul_nonneg (sq_nonneg _) (by linarith)
  nlinarith [hkey]

/-- The cube root lies above its chord on [0,1]: `s ≤ s^(1/3)`. -/
theorem le_rcbrt_chord {s : ℝ} (h0 : 0 ≤ s) (h1 : s ≤ 1) : s ≤ rcbrt s := by
  have hu : 0 ≤ rcbrt s := rcbrt_nonneg h0
  have hu1 : rcbrt s ≤ 1 := rcbrt_le_one h0 h1
  have hu3 : rcbrt s ^ 3 = s := rcbrt_cube h0
  have hkey : 0 ≤ rcbrt s * (1 - rcbrt s) * (1 + rcbrt s) :=
    mul_nonneg (mul_nonneg hu (by linarith)) (by linarith)
  nlinarith [hkey]

/-- The OKLab lightness formula (the first component of `rgb_to_oklch`)
lies in [0,1] whenever the linear RGB channels do.  The upper bound is
linear arithmetic once the cube roots of the long/medium responses are
replaced by their tangent at 1 and the cube root of the short response by
its chord; the maximum of the resulting linear form over the unit cube sits
at white, where it evaluates to 0.9999999935… < 1. -/
theorem oklab_L_core {l m s : ℝ} (hl0 : 0 ≤ l) (hl1 : l ≤ 1) (hm0 : 0 ≤ m)
    (hs0 : 0 ≤ s) (hs1 : s ≤ 1)
    (hsl : s ≤ 12.2456 * l)
    (hup : 0.2104542553 * ((l + 2) / 3) + 0.7936177850 * ((m + 2) / 3)
      - 0.0040720468 * s ≤ 1) :
    0 ≤ 0.2104542553 * rcbrt l + 0.7936177850 * rcbrt m
        - 0.0040720468 * rcbrt s ∧
    0.2104542553 * rcbrt l + 0.7936177850 * rcbrt m
        - 0.0040720468 * rcbrt s ≤ 1 := by
  constructor
  · -- lower bound: s ≤ 12.2456·l pointwise, so
    -- cbrt s ≤ 2.31·cbrt l and the negative term is dominated.
    have hc1 : rcbrt s ≤ rcbrt (12.2456 * l) := rcbrt_mono hs0 hsl
    have hc2 : rcbrt (12.2456 * l) ≤ rcbrt ((2.31 : ℝ) ^ 3 * l) := by
      apply rcbrt_mono (by linarith)
      have h231 : (2.31 : ℝ) ^ 3 = 12.326391 := by norm_num
      rw [h231]
      linarith
    have hc3 : rcbrt ((2.31 : ℝ) ^ 3 * l) = 2.31 * rcbrt l :=
      rcbrt_cube_mul (by norm_num) hl0
    have h4 : 0 ≤ rcbrt l := rcbrt_nonneg hl0
    have h5 : 0 ≤ rcbrt m := rcbrt_nonneg hm0
    have h6 : rcbrt s ≤ 2.31 * rcbrt l := by linarith
    linarith
  · -- upper bound via the tangent and chord estimates; with `hup` this is
    -- plain linear arithmetic.
    have ht1 : rcbrt l ≤ (l + 2) / 3 := rcbrt_le_tangent hl0
    have ht2 : rcbrt m ≤ (m + 2) / 3 := rcbrt_le_tangent hm0
    have ht3 : s ≤ rcbrt s := le_rcbrt_chord hs0 hs1
    linarith

theorem oklab_L_mem {x y z : ℝ} (hx0 : 0 ≤ x) (hx1 : x ≤ 1) (hy0 : 0 ≤ y)
    (hy1 : y ≤ 1) (hz0 : 0 ≤ z) (hz1 : z ≤ 1) :
    0 ≤ 0.2104542553 * rcbrt (0.4122214708 * x + 0.5363325363 * y + 0.0514459929 * z)
      + 0.7936177850 * rcbrt (0.2119034982 * x + 0.6806995451 * y + 0.1073969566 * z)
      - 0.0040720468 * rcbrt (0.0883024619 * x + 0.2817188376 * y + 0.6299787005 * z) ∧
    0.2104542553 * rcbrt (0.4122214708 * x + 0.5363325363 * y + 0.0514459929 * z)
      + 0.7936177850 * rcbrt (0.2119034982 * x + 0.6806995451 * y + 0.1073969566 * z)
      - 0.0040720468 * rcbrt (0.0883024619 * x + 0.2817188376 * y + 0.6299787005 * z) ≤ 1 := by
  exact oklab_L_core (by linarith) (by linarith) (by linarith) (by linarith)
    (by linarith) (by linarith) (by linarith)

theorem atan2_le_pi (y x : ℝ) : atan2 y x ≤ Real.pi := Complex.arg_le_pi _

theorem neg_pi_lt_atan2 (y x : ℝ) : -Real.pi < atan2 y x :=
  Complex.neg_pi_lt_arg _

/-- `f32::atan2` converted to degrees lies in (−180, 180]. -/
theorem atan2_deg_bounds (y x : ℝ) :
    -180 < atan2 y x * (180 / Real.pi) ∧ atan2 y x * (180 / Real.pi) ≤ 180 := by
  have hpi : 0 < Real.pi := Real.pi_pos
  constructor
  · have := mul_lt_mul_of_pos_right (neg_pi_lt_atan2 y x)
      (show (0 : ℝ) < 180 / Real.pi by positivity)
    calc (-180 : ℝ) = -Real.pi * (180 / Real.pi) := by field_simp; ring
      _ < atan2 y x * (180 / Real.pi) := this
  · calc atan2 y x * (180 / Real.pi) ≤ Real.pi * (180 / Real.pi) :=
        mul_le_mul_of_nonneg_right (atan2_le_pi y x) (by positivity)
      _ = 180 := by field_simp

/-- The hue conditional of `rgb_to_oklch` always lands in [0, 360). -/
theorem hue_branch_mem (c0 B A : ℝ) :
    0 ≤ (if c0 < 1e-8 then (0 : ℝ) else
      (if atan2 B A * (180 / Real.pi) < 0 then
        atan2 B A * (180 / Real.pi) + 360
      else atan2 B A * (180 / Real.pi))) ∧
    (if c0 < 1e-8 then (0 : ℝ) else
      (if atan2 B A * (180 / Real.pi) < 0 then
        atan2 B A * (180 / Real.pi) + 360
      else atan2 B A * (180 / Real.pi))) < 360 := by
  obtain ⟨hlo, hhi⟩ := atan2_deg_bounds B A
  split_ifs with h1 h2
  · exact ⟨le_refl 0, by norm_num⟩
  · constructor <;> linarith
  · push_neg at h2
    constructor <;> linarith

/-- Component ranges of `rgb_to_oklch`: lightness in [0,1], chroma ≥ 0,
hue in [0, 360). -/
theorem rgb_to_oklch_mem (r g b : ℕ) (hr : r ≤ 255) (hg : g ≤ 255)
    (hb : b ≤ 255) :
    (0 ≤ (rgb_to_oklch r g b).1 ∧ (rgb_to_oklch r g b).1 ≤ 1) ∧
    0 ≤ (rgb_to_oklch r g b).2.1 ∧
    (0 ≤ (rgb_to_oklch r g b).2.2 ∧ (rgb_to_oklch r g b).2.2 < 360) := by
  have hx := srgb_to_linear_mem (x := (r : ℝ) / 255) (by positivity)
    (by rw [div_le_one (by norm_num)]; exact_mod_cast hr)
  have hy := srgb_to_linear_mem (x := (g : ℝ) / 255) (by positivity)
    (by rw [div_le_one (by norm_num)]; exact_mod_cast hg)
  have hz := srgb_to_linear_mem (x := (b : ℝ) / 255) (by positivity)
    (by rw [div_le_one (by norm_num)]; exact_mod_cast hb)
  simp only [rgb_to_oklch]
  refine ⟨?_, ?_, ?_⟩
  · exact oklab_L_mem hx.1 hx.2 hy.1 hy.2 hz.1 hz.2
  · exact Real.sqrt_nonneg _
  · exact hue_branch_mem _ _ _

/-- The chroma of pure magenta (255, 0, 255) exceeds 0.3: `rgb_to_oklch`
applies no upper clamp to chroma. -/
theorem magenta_chroma : (3 / 10 : ℝ) < (rgb_to_oklch 255 0 255).2.1 := by
  simp only [rgb_to_oklch]
  norm_num [srgb_to_linear_one, srgb_to_linear_zero]
  have hl1 : (0.7739 : ℝ) ≤ rcbrt 0.4636674637 :=
    rcbrt_lower (by norm_num) (by norm_num)
  have hl2 : rcbrt (0.4636674637 : ℝ) ≤ 0.7741 :=
    rcbrt_upper (by norm_num) (by norm_num) (by norm_num)
  have hm1 : (0.6834 : ℝ) ≤ rcbrt 0.3193004548 :=
    rcbrt_lower (by norm_num) (by norm_num)
  have hm2 : rcbrt (0.3193004548 : ℝ) ≤ 0.6836 :=
    rcbrt_upper (by norm_num) (by norm_num) (by norm_num)
  have hs1 : (0.8955 : ℝ) ≤ rcbrt 0.7182811624 :=
    rcbrt_lower (by norm_num) (by norm_num)
  have hs2 : rcbrt (0.7182811624 : ℝ) ≤ 0.8957 :=
    rcbrt_upper (by norm_num) (by norm_num) (by norm_num)
  rw [show (3 / 10 : ℝ) = Real.sqrt ((3 / 10) ^ 2) from
    (Real.sqrt_sq (by norm_num)).symm]
  apply Real.sqrt_lt_sqrt (by norm_num)
  nlinarith [hl1, hl2, hm1, hm2, hs1, hs2]

/-- C8: for every byte triple, the hue of `rgb_to_hsl` and the hue of
`rgb_to_oklch` lie in [0, 360); the saturation and lightness of
`rgb_to_hsl` and the lightness of `rgb_to_oklch` lie in [0, 1]; the chroma
of `rgb_to_oklch` is non-negative and is not upper-clamped (pure magenta
already exceeds 0.3). -/
theorem component_ranges (r g b : Fin 256) :
    (0 ≤ (rgb_to_hsl r.val g.val b.val).1 ∧
      (rgb_to_hsl r.val g.val b.val).1 < 360) ∧
    (0 ≤ (rgb_to_hsl r.val g.val b.val).2.1 ∧
      (rgb_to_hsl r.val g.val b.val).2.1 ≤ 1) ∧
    (0 ≤ (rgb_to_hsl r.val g.val b.val).2.2 ∧
      (rgb_to_hsl r.val g.val b.val).2.2 ≤ 1) ∧
    (0 ≤ (rgb_to_oklch r.val g.val b.val).1 ∧
      (rgb_to_oklch r.val g.val b.val).1 ≤ 1) ∧
    0 ≤ (rgb_to_oklch r.val g.val b.val).2.1 ∧
    (0 ≤ (rgb_to_oklch r.val g.val b.val).2.2 ∧
      (rgb_to_oklch r.val g.val b.val).2.2 < 360) ∧
    (3 / 10 : ℝ) < (rgb_to_oklch 255 0 255).2.1 := by
  have hrb : r.val ≤ 255 := Nat.lt_succ_iff.mp r.isLt
  have hgb : g.val ≤ 255 := Nat.lt_succ_iff.mp g.isLt
  have hbb : b.val ≤ 255 := Nat.lt_succ_iff.mp b.isLt
  obtain ⟨h1, h2, h3⟩ := rgb_to_hsl_mem r.val g.val b.val hrb hgb hbb
  obtain ⟨h4, h5, h6⟩ := rgb_to_oklch_mem r.val g.val b.val hrb hgb hbb
  exact ⟨h1, h2, h3, h4, h5, h6, magenta_chroma⟩

/-- Subadditivity of `x ^ p` on nonnegative reals for `0 ≤ p ≤ 1`. -/
theorem rpow_subadd {x d : ℝ} (hx : 0 ≤ x) (hd : 0 ≤ d) {p : ℝ}
    (hp0 : 0 ≤ p) (hp1 : p ≤ 1) : (x + d) ^ p ≤ x ^ p + d ^ p := by
  have h := NNReal.rpow_add_le_add_rpow x.toNNReal d.toNNReal hp0 hp1
  rw [← NNReal.coe_le_coe] at h
  push_cast at h
  rwa [Real.coe_toNNReal x hx, Real.coe_toNNReal d hd] at h

/-- Concave-power modulus of continuity: a difference of `p`-th powers is
bounded by the `p`-th power of the difference (`0 ≤ p ≤ 1`). -/
theorem rpow_sub_bound {x y d p : ℝ} (hx : 0 ≤ x) (hy : 0 ≤ y)
    (hp0 : 0 ≤ p) (hp1 : p ≤ 1) (h : |x - y| ≤ d) :
    |x ^ p - y ^ p| ≤ d ^ p := by
  have hd0 : 0 ≤ d := le_trans (abs_nonneg _) h
  have hdp0 : 0 ≤ d ^ p := Real.rpow_nonneg hd0 _
  obtain ⟨hl, hr⟩ := abs_le.mp h
  rcases le_total y x with hxy | hxy
  · have hsub : 0 ≤ x - y := by linarith
    have hstep : x ^ p ≤ y ^ p + (x - y) ^ p := by
      have hkey := rpow_subadd hy hsub hp0 hp1
      rwa [show y + (x - y) = x by ring] at hkey
    have hmono : y ^ p ≤ x ^ p := Real.rpow_le_rpow hy hxy hp0
    have hdd : (x - y) ^ p ≤ d ^ p := Real.rpow_le_rpow hsub hr hp0
    rw [abs_le]
    constructor <;> linarith
  · have hsub : 0 ≤ y - x := by linarith
    have hstep : y ^ p ≤ x ^ p + (y - x) ^ p := by
      have hkey := rpow_subadd hx hsub hp0 hp1
      rwa [show x + (y - x) = y by ring] at hkey
    have hmono : x ^ p ≤ y ^ p := Real.rpow_le_rpow hx hxy hp0
    have hdd : (y - x) ^ p ≤ d ^ p := Real.rpow_le_rpow hsub (by linarith) hp0
    rw [abs_le]
    constructor <;> linarith

/-- Certify a lower bound on `x ^ (5/12)` from the rational inequality
`q¹² ≤ x⁵`. -/
theorem rpow_512_lower {q x : ℝ} (hq : 0 ≤ q) (hx : 0 ≤ x)
    (h : q ^ 12 ≤ x ^ 5) : q ≤ x ^ ((5 : ℝ) / 12) := by
  have h12 : q ^ (12 : ℝ) = q ^ (12 : ℕ) := by
    rw [show (12 : ℝ) = ((12 : ℕ) : ℝ) by norm_num, Real.rpow_natCast]
  have h5 : x ^ (5 : ℝ) = x ^ (5 : ℕ) := by
    rw [show (5 : ℝ) = ((5 : ℕ) : ℝ) by norm_num, Real.rpow_natCast]
  have key : (q ^ (12 : ℝ)) ^ ((1 : ℝ) / 12) ≤ (x ^ (5 : ℝ)) ^ ((1 : ℝ) / 12) :=
    Real.rpow_le_rpow (Real.rpow_nonneg hq _)
      (by rw [h12, h5]; exact_mod_cast h) (by norm_num)
  rwa [← Real.rpow_mul hq, ← Real.rpow_mul hx,
    show (12 : ℝ) * (1 / 12) = 1 by norm_num,
    show (5 : ℝ) * (1 / 12) = 5 / 12 by norm_num, Real.rpow_one] at key

/-- Certify an upper bound on `x ^ (5/12)` from the rational inequality
`x⁵ ≤ q¹²`. -/
theorem rpow_512_upper {x q : ℝ} (hx : 0 ≤ x) (hq : 0 ≤ q)
    (h : x ^ 5 ≤ q ^ 12) : x ^ ((5 : ℝ) / 12) ≤ q := by
  have h12 : q ^ (12 : ℝ) = q ^ (12 : ℕ) := by
    rw [show (12 : ℝ) = ((12 : ℕ) : ℝ) by norm_num, Real.rpow_natCast]
  have h5 : x ^ (5 : ℝ) = x ^ (5 : ℕ) := by
    rw [show (5 : ℝ) = ((5 : ℕ) : ℝ) by norm_num, Real.rpow_natCast]
  have key : (x ^ (5 : ℝ)) ^ ((1 : ℝ) / 12) ≤ (q ^ (12 : ℝ)) ^ ((1 : ℝ) / 12) :=
    Real.rpow_le_rpow (Real.rpow_nonneg hx _)
      (by rw [h12, h5]; exact_mod_cast h) (by norm_num)
  rwa [← Real.rpow_mul hx, ← Real.rpow_mul hq,
    show (5 : ℝ) * (1 / 12) = 5 / 12 by norm_num,
    show (12 : ℝ) * (1 / 12) = 1 by norm_num, Real.rpow_one] at key

/-- Certify a lower bound on `x ^ (2/5)` from the rational inequality
`q⁵ ≤ x²`. -/
theorem rpow_25_lower {q x : ℝ} (hq : 0 ≤ q) (hx : 0 ≤ x)
    (h : q ^ 5 ≤ x ^ 2) : q ≤ x ^ ((2 : ℝ) / 5) := by
  have h5 : q ^ (5 : ℝ) = q ^ (5 : ℕ) := by
    rw [show (5 : ℝ) = ((5 : ℕ) : ℝ) by norm_num, Real.rpow_natCast]
  have h2 : x ^ (2 : ℝ) = x ^ (2 : ℕ) := by
    rw [show (2 : ℝ) = ((2 : ℕ) : ℝ) by norm_num, Real.rpow_natCast]
  have key : (q ^ (5 : ℝ)) ^ ((1 : ℝ) / 5) ≤ (x ^ (2 : ℝ)) ^ ((1 : ℝ) / 5) :=
    Real.rpow_le_rpow (Real.rpow_nonneg hq _)
      (by rw [h5, h2]; exact_mod_cast h) (by norm_num)
  rwa [← Real.rpow_mul hq, ← Real.rpow_mul hx,
    show (5 : ℝ) * (1 / 5) = 1 by norm_num,
    show (2 : ℝ) * (1 / 5) = 2 / 5 by norm_num, Real.rpow_one] at key

/-- Any base at least 0.093 raised to 2.4 clears the sRGB encoder
threshold 0.0031308. -/
theorem pow24_lower {c : ℝ} (hc : 0.093 ≤ c) : 0.0031308 < c ^ (2.4 : ℝ) := by
  have hc0 : (0 : ℝ) ≤ c := by linarith
  have hcpos : (0 : ℝ) < c := by linarith
  have h25 : (0.386 : ℝ) ≤ c ^ ((2 : ℝ) / 5) := by
    apply rpow_25_lower (by norm_num) hc0
    nlinarith
  have hsplit : c ^ (2.4 : ℝ) = c ^ (2 : ℝ) * c ^ ((2 : ℝ) / 5) := by
    rw [← Real.rpow_add hcpos]
    norm_num
  have hc2 : (0.008649 : ℝ) ≤ c ^ (2 : ℝ) := by
    rw [show (2 : ℝ) = ((2 : ℕ) : ℝ) by norm_num, Real.rpow_natCast]
    nlinarith
  calc (0.0031308 : ℝ) < 0.008649 * 0.386 := by norm_num
    _ ≤ c ^ (2 : ℝ) * c ^ ((2 : ℝ) / 5) :=
      mul_le_mul hc2 h25 (by norm_num) (Real.rpow_nonneg hc0 _)
    _ = c ^ (2.4 : ℝ) := hsplit.symm

/-- Rational bracket for the sRGB threshold raised to 5/12. -/
theorem th_pow_mem :
    (0.09046 : ℝ) ≤ (0.0031308 : ℝ) ^ ((5 : ℝ) / 12) ∧
      (0.0031308 : ℝ) ^ ((5 : ℝ) / 12) ≤ 0.0905 :=
  ⟨rpow_512_lower (by norm_num) (by norm_num) (by norm_num),
   rpow_512_upper (by norm_num) (by norm_num) (by norm_num)⟩

/-- Rational upper bound for the perturbation budget raised to 5/12. -/
theorem eps_pow_le : ((6e-6 : ℝ)) ^ ((5 : ℝ) / 12) ≤ 0.0068 :=
  rpow_512_upper (by norm_num) (by norm_num) (by norm_num)

/-- On exact byte values the sRGB decode/encode pair cancels: both sides of
the piecewise definitions select matching branches for every byte. -/
theorem gamma_roundtrip {k : ℕ} (hk : k ≤ 255) :
    linear_to_srgb (srgb_to_linear ((k : ℝ) / 255)) = (k : ℝ) / 255 := by
  have hk0 : (0 : ℝ) ≤ (k : ℝ) := Nat.cast_nonneg k
  rcases le_or_lt (k : ℝ) 10 with hsm | hlg
  · have hx1 : (k : ℝ) / 255 ≤ 0.04045 := by
      rw [div_le_iff (by norm_num)]
      linarith
    have hx2 : (k : ℝ) / 255 / 12.92 ≤ 0.0031308 := by
      rw [div_le_iff (by norm_num), div_le_iff (by norm_num)]
      linarith
    rw [srgb_to_linear, if_pos hx1, linear_to_srgb, if_pos hx2]
    field_simp
    ring
  · have hk11 : (11 : ℝ) ≤ (k : ℝ) := by
      have : (10 : ℕ) < k := by exact_mod_cast hlg
      exact_mod_cast this
    have hx1 : ¬ ((k : ℝ) / 255 ≤ 0.04045) := by
      push_neg
      rw [lt_div_iff (by norm_num)]
      linarith
    rw [srgb_to_linear, if_neg hx1]
    have hc093 : (0.093 : ℝ) ≤ ((k : ℝ) / 255 + 0.055) / 1.055 := by
      rw [le_div_iff (by norm_num)]
      linarith
    have hcpos : (0 : ℝ) < ((k : ℝ) / 255 + 0.055) / 1.055 := by linarith
    have hth : ¬ ((((k : ℝ) / 255 + 0.055) / 1.055) ^ (2.4 : ℝ) ≤ 0.0031308) :=
      not_le.mpr (pow24_lower hc093)
    rw [linear_to_srgb, if_neg hth, one_div_24,
      ← Real.rpow_mul (le_of_lt hcpos),
      show (2.4 : ℝ) * (5 / 12) = 1 by norm_num, Real.rpow_one]
    field_simp
    ring

/-- Converting chroma and hue back to Cartesian OKLab coordinates recovers
the original (a, b) pair up to the 1e-8 small-chroma cutoff. -/
theorem polar_recover (a b : ℝ) :
    |Real.sqrt (a * a + b * b) *
        Real.cos ((if Real.sqrt (a * a + b * b) < 1e-8 then (0 : ℝ)
          else if atan2 b a * (180 / Real.pi) < 0 then
            atan2 b a * (180 / Real.pi) + 360
          else atan2 b a * (180 / Real.pi)) * (Real.pi / 180)) - a| ≤ 2e-8 ∧
    |Real.sqrt (a * a + b * b) *
        Real.sin ((if Real.sqrt (a * a + b * b) < 1e-8 then (0 : ℝ)
          else if atan2 b a * (180 / Real.pi) < 0 then
            atan2 b a * (180 / Real.pi) + 360
          else atan2 b a * (180 / Real.pi)) * (Real.pi / 180)) - b| ≤ 2e-8 := by
  have hC0 : 0 ≤ Real.sqrt (a * a + b * b) := Real.sqrt_nonneg _
  have haa : |a| ≤ Real.sqrt (a * a + b * b) := by
    rw [← Real.sqrt_mul_self_eq_abs]
    exact Real.sqrt_le_sqrt (by nlinarith [mul_self_nonneg b])
  have hbb : |b| ≤ Real.sqrt (a * a + b * b) := by
    rw [← Real.sqrt_mul_self_eq_abs]
    exact Real.sqrt_le_sqrt (by nlinarith [mul_self_nonneg a])
  have hpi : Real.pi ≠ 0 := Real.pi_ne_zero
  have hcos : Complex.abs ⟨a, b⟩ * Real.cos (Complex.arg ⟨a, b⟩) = a :=
    Complex.abs_mul_cos_arg ⟨a, b⟩
  have hsin : Complex.abs ⟨a, b⟩ * Real.sin (Complex.arg ⟨a, b⟩) = b :=
    Complex.abs_mul_sin_arg ⟨a, b⟩
  have habs : Real.sqrt (a * a + b * b) = Complex.abs ⟨a, b⟩ := by
    rw [Complex.abs_apply, Complex.normSq_mk]
  by_cases hsmall : Real.sqrt (a * a + b * b) < 1e-8
  · obtain ⟨ha1, ha2⟩ := abs_le.mp haa
    obtain ⟨hb1, hb2⟩ := abs_le.mp hbb
    rw [if_pos hsmall]
    constructor
    · rw [zero_mul, Real.cos_zero, mul_one, abs_le]
      constructor <;> linarith
    · rw [zero_mul, Real.sin_zero, mul_zero, zero_sub, abs_neg, abs_le]
      constructor <;> linarith
  · rw [if_neg hsmall]
    by_cases hneg : atan2 b a * (180 / Real.pi) < 0
    · rw [if_pos hneg]
      have harith : (atan2 b a * (180 / Real.pi) + 360) * (Real.pi / 180) =
          atan2 b a + 2 * Real.pi := by
        field_simp
        ring
      rw [harith, Real.cos_add_two_pi, Real.sin_add_two_pi]
      simp only [atan2] at *
      rw [habs, hcos, hsin]
      norm_num
    · rw [if_neg hneg]
      have harith : atan2 b a * (180 / Real.pi) * (Real.pi / 180) =
          atan2 b a := by
        field_simp
      rw [harith]
      simp only [atan2] at *
      rw [habs, hcos, hsin]
      norm_num

/-- The OKLab-to-LMS affine inverse composed with the forward LMS-to-OKLab
matrix recovers each cube-root response up to 2e-7: the two truncated
matrices of the source are near-inverses, and the reconstructed (a, b) pair
carries at most 2e-8 of polar error. -/
theorem oklab_inverse_delta {u v w a2 b2 : ℝ}
    (hu0 : 0 ≤ u) (hu1 : u ≤ 1) (hv0 : 0 ≤ v) (hv1 : v ≤ 1)
    (hw0 : 0 ≤ w) (hw1 : w ≤ 1)
    (ha : |a2 - (1.9779984951 * u - 2.4285922050 * v + 0.4505937099 * w)| ≤ 2e-8)
    (hb : |b2 - (0.0259040371 * u + 0.7827717662 * v - 0.8086757660 * w)| ≤ 2e-8) :
    |(0.2104542553 * u + 0.7936177850 * v - 0.0040720468 * w) +
        0.3963377774 * a2 + 0.2158037573 * b2 - u| ≤ 2e-7 ∧
    |(0.2104542553 * u + 0.7936177850 * v - 0.0040720468 * w) -
        0.1055613458 * a2 - 0.0638541728 * b2 - v| ≤ 2e-7 ∧
    |(0.2104542553 * u + 0.7936177850 * v - 0.0040720468 * w) -
        0.0894841775 * a2 - 1.2914855480 * b2 - w| ≤ 2e-7 := by
  obtain ⟨ha1, ha2'⟩ := abs_le.mp ha
  obtain ⟨hb1, hb2'⟩ := abs_le.mp hb
  refine ⟨?_, ?_, ?_⟩ <;> rw [abs_le] <;> constructor <;> linarith

/-- Perturbing the base of a cube by at most 2e-7 inside [0, 1] moves the
cube by at most 7e-7. -/
theorem cube_delta {u u2 : ℝ} (h0 : 0 ≤ u) (h1 : u ≤ 1)
    (hd : |u2 - u| ≤ 2e-7) :
    |u2 * u2 * u2 - u * u * u| ≤ 7e-7 := by
  obtain ⟨hd1, hd2⟩ := abs_le.mp hd
  have hb1 : u2 ≤ 1 + 2e-7 := by linarith
  have hb0 : -(2e-7) ≤ u2 := by linarith
  have key : u2 * u2 * u2 - u * u * u =
      (u2 - u) * (u2 * u2 + u2 * u + u * u) := by ring
  rw [key, abs_mul]
  have hsum : |u2 * u2 + u2 * u + u * u| ≤ 3.1 := by
    rw [abs_le]
    constructor <;> nlinarith [sq_nonneg (u2 + u), sq_nonneg (u2 - u),
      sq_nonneg u2, sq_nonneg u]
  calc |u2 - u| * |u2 * u2 + u2 * u + u * u| ≤ 2e-7 * 3.1 :=
      mul_le_mul hd hsum (abs_nonneg _) (by norm_num)
    _ ≤ 7e-7 := by norm_num

/-- The LMS-to-linear-RGB inverse matrix composed with the forward
linear-RGB-to-LMS matrix recovers each linear channel up to 6e-6 when the
cubed responses carry at most 7e-7 of error each. -/
theorem lms_inverse_delta {x y z cl cm cs : ℝ}
    (hx0 : 0 ≤ x) (hx1 : x ≤ 1) (hy0 : 0 ≤ y) (hy1 : y ≤ 1)
    (hz0 : 0 ≤ z) (hz1 : z ≤ 1)
    (hl : |cl - (0.4122214708 * x + 0.5363325363 * y + 0.0514459929 * z)| ≤ 7e-7)
    (hm : |cm - (0.2119034982 * x + 0.6806995451 * y + 0.1073969566 * z)| ≤ 7e-7)
    (hs : |cs - (0.0883024619 * x + 0.2817188376 * y + 0.6299787005 * z)| ≤ 7e-7) :
    |4.0767416621 * cl - 3.3077115913 * cm + 0.2309699292 * cs - x| ≤ 6e-6 ∧
    |-1.2684380046 * cl + 2.6097574011 * cm - 0.3413193965 * cs - y| ≤ 6e-6 ∧
    |-0.0041960863 * cl - 0.7034186147 * cm + 1.7076147010 * cs - z| ≤ 6e-6 := by
  obtain ⟨hl1, hl2⟩ := abs_le.mp hl
  obtain ⟨hm1, hm2⟩ := abs_le.mp hm
  obtain ⟨hs1, hs2⟩ := abs_le.mp hs
  refine ⟨?_, ?_, ?_⟩ <;> rw [abs_le] <;> constructor <;> linarith

/-- Modulus of continuity of the sRGB encoder around a point of [0, 1]:
a 6e-6 perturbation of the linear value moves the encoded value by at most
0.0074, across all four branch combinations (the branch jump at the
threshold is smaller than 3e-5). -/
theorem linear_to_srgb_delta {w w2 : ℝ} (h0 : 0 ≤ w) (h1 : w ≤ 1)
    (hd : |w2 - w| ≤ 6e-6) :
    |linear_to_srgb w2 - linear_to_srgb w| ≤ 0.0074 := by
  obtain ⟨hd1, hd2⟩ := abs_le.mp hd
  obtain ⟨hth1, hth2⟩ := th_pow_mem
  rw [linear_to_srgb, linear_to_srgb, one_div_24]
  rcases le_or_lt w2 0.0031308 with hw2 | hw2 <;>
    rcases le_or_lt w 0.0031308 with hw | hw
  · rw [if_pos hw2, if_pos hw, abs_le]
    constructor <;> linarith
  · rw [if_pos hw2, if_neg (not_le.mpr hw)]
    have hwth : |w ^ ((5 : ℝ) / 12) - (0.0031308 : ℝ) ^ ((5 : ℝ) / 12)| ≤
        (6e-6 : ℝ) ^ ((5 : ℝ) / 12) :=
      rpow_sub_bound h0 (by norm_num) (by norm_num) (by norm_num)
        (abs_le.mpr ⟨by linarith, by linarith⟩)
    obtain ⟨hq1, hq2⟩ := abs_le.mp hwth
    have heps := eps_pow_le
    rw [abs_le]
    constructor <;> linarith
  · rw [if_neg (not_le.mpr hw2), if_pos hw]
    have hw20 : (0 : ℝ) ≤ w2 := by linarith
    have hwth : |w2 ^ ((5 : ℝ) / 12) - (0.0031308 : ℝ) ^ ((5 : ℝ) / 12)| ≤
        (6e-6 : ℝ) ^ ((5 : ℝ) / 12) :=
      rpow_sub_bound hw20 (by norm_num) (by norm_num) (by norm_num)
        (abs_le.mpr ⟨by linarith, by linarith⟩)
    obtain ⟨hq1, hq2⟩ := abs_le.mp hwth
    have heps := eps_pow_le
    rw [abs_le]
    constructor <;> linarith
  · rw [if_neg (not_le.mpr hw2), if_neg (not_le.mpr hw)]
    have hw20 : (0 : ℝ) ≤ w2 := by linarith
    have hwth : |w2 ^ ((5 : ℝ) / 12) - w ^ ((5 : ℝ) / 12)| ≤
        (6e-6 : ℝ) ^ ((5 : ℝ) / 12) :=
      rpow_sub_bound hw20 h0 (by norm_num) (by norm_num) hd
    obtain ⟨hq1, hq2⟩ := abs_le.mp hwth
    have heps := eps_pow_le
    rw [abs_le]
    constructor <;> linarith

/-- `f32::clamp(0,1)` does not increase the distance to a point of [0,1]. -/
theorem rclamp01_close {t x d : ℝ} (hx0 : 0 ≤ x) (hx1 : x ≤ 1)
    (h : |t - x| ≤ d) : |rclamp01 t - x| ≤ d := by
  have hd0 : 0 ≤ d := le_trans (abs_nonneg _) h
  obtain ⟨h1, h2⟩ := abs_le.mp h
  rw [rclamp01]
  rcases le_total t 0 with ht0 | ht0
  · rw [max_eq_right ht0, min_eq_left (by norm_num : (0 : ℝ) ≤ 1), abs_le]
    constructor <;> linarith
  · rw [max_eq_left ht0]
    rcases le_total t 1 with ht1 | ht1
    · rw [min_eq_left ht1, abs_le]
      constructor <;> linarith
    · rw [min_eq_right ht1, abs_le]
      constructor <;> linarith

/-- Clamping, scaling by 255, rounding and narrowing a value within 0.0074
of the exact byte fraction k/255 lands within 2 of k. -/
theorem channel_close {k : ℕ} (hk : k ≤ 255) {t : ℝ}
    (h : |t - (k : ℝ) / 255| ≤ 0.0074) :
    |(u8cast (rustRound (rclamp01 t * 255)) : ℤ) - (k : ℤ)| ≤ 2 := by
  have hx0 : (0 : ℝ) ≤ (k : ℝ) / 255 := by positivity
  have hx1 : (k : ℝ) / 255 ≤ 1 := by
    rw [div_le_one (by norm_num)]
    exact_mod_cast hk
  have hcl := rclamp01_close hx0 hx1 h
  obtain ⟨hc0, hc1⟩ := rclamp01_mem t
  obtain ⟨ha1, ha2⟩ := abs_le.mp hcl
  have hy255 : (0 : ℝ) ≤ rclamp01 t * 255 := by positivity
  rw [rustRound, if_pos hy255]
  have hkr : (k : ℝ) ≤ 255 := by exact_mod_cast hk
  have hub : ⌊rclamp01 t * 255 + 1 / 2⌋ ≤ (k : ℤ) + 2 := by
    have hlt : rclamp01 t * 255 + 1 / 2 < (((k : ℤ) + 3 : ℤ) : ℝ) := by
      push_cast
      linarith
    have := Int.floor_lt.mpr hlt
    omega
  have hlb : (k : ℤ) - 2 ≤ ⌊rclamp01 t * 255 + 1 / 2⌋ := by
    apply Int.le_floor.mpr
    push_cast
    linarith
  have hge0 : (0 : ℤ) ≤ ⌊rclamp01 t * 255 + 1 / 2⌋ := by
    apply Int.le_floor.mpr
    push_cast
    linarith
  have hle255 : ⌊rclamp01 t * 255 + 1 / 2⌋ ≤ 255 := by
    have hlt : rclamp01 t * 255 + 1 / 2 < ((256 : ℤ) : ℝ) := by
      push_cast
      linarith
    have := Int.floor_lt.mpr hlt
    omega
  rw [u8cast_of_mem hge0 hle255, Int.toNat_of_nonneg hge0, abs_le]
  omega

set_option maxHeartbeats 2000000 in
/-- Channel-level roundtrip: composing the two conversions returns every
byte channel within ±2 of its original value. -/
theorem roundtrip_bytes (k1 k2 k3 : ℕ) (hk1 : k1 ≤ 255) (hk2 : k2 ≤ 255)
    (hk3 : k3 ≤ 255) :
    |((oklch_to_rgb (rgb_to_oklch k1 k2 k3).1 (rgb_to_oklch k1 k2 k3).2.1
        (rgb_to_oklch k1 k2 k3).2.2).1 : ℤ) - (k1 : ℤ)| ≤ 2 ∧
    |((oklch_to_rgb (rgb_to_oklch k1 k2 k3).1 (rgb_to_oklch k1 k2 k3).2.1
        (rgb_to_oklch k1 k2 k3).2.2).2.1 : ℤ) - (k2 : ℤ)| ≤ 2 ∧
    |((oklch_to_rgb (rgb_to_oklch k1 k2 k3).1 (rgb_to_oklch k1 k2 k3).2.1
        (rgb_to_oklch k1 k2 k3).2.2).2.2 : ℤ) - (k3 : ℤ)| ≤ 2 := by
  simp only [rgb_to_oklch, oklch_to_rgb]
  set x := srgb_to_linear ((k1 : ℝ) / 255) with hxd
  set y := srgb_to_linear ((k2 : ℝ) / 255) with hyd
  set z := srgb_to_linear ((k3 : ℝ) / 255) with hzd
  set l := 0.4122214708 * x + 0.5363325363 * y + 0.0514459929 * z with hld
  set m := 0.2119034982 * x + 0.6806995451 * y + 0.1073969566 * z with hmd
  set s := 0.0883024619 * x + 0.2817188376 * y + 0.6299787005 * z with hsd
  set u := rcbrt l with hud
  set v := rcbrt m with hvd
  set w := rcbrt s with hwd
  set L := 0.2104542553 * u + 0.7936177850 * v - 0.0040720468 * w with hLd
  set A := 1.9779984951 * u - 2.4285922050 * v + 0.4505937099 * w with hAd
  set B := 0.0259040371 * u + 0.7827717662 * v - 0.8086757660 * w with hBd
  set C := Real.sqrt (A * A + B * B) with hCd
  set H := if C < 1e-8 then (0 : ℝ) else
      if atan2 B A * (180 / Real.pi) < 0 then atan2 B A * (180 / Real.pi) + 360
      else atan2 B A * (180 / Real.pi) with hHd
  set a2 := C * Real.cos (H * (Real.pi / 180)) with ha2d
  set b2 := C * Real.sin (H * (Real.pi / 180)) with hb2d
  set cu := L + 0.3963377774 * a2 + 0.2158037573 * b2 with hcud
  set cv := L - 0.1055613458 * a2 - 0.0638541728 * b2 with hcvd
  set cw := L - 0.0894841775 * a2 - 1.2914855480 * b2 with hcwd
  have hx0 : 0 ≤ x ∧ x ≤ 1 := by
    rw [hxd]
    exact srgb_to_linear_mem (by positivity)
      (by rw [div_le_one (by norm_num)]; exact_mod_cast hk1)
  have hy0 : 0 ≤ y ∧ y ≤ 1 := by
    rw [hyd]
    exact srgb_to_linear_mem (by positivity)
      (by rw [div_le_one (by norm_num)]; exact_mod_cast hk2)
  have hz0 : 0 ≤ z ∧ z ≤ 1 := by
    rw [hzd]
    exact srgb_to_linear_mem (by positivity)
      (by rw [div_le_one (by norm_num)]; exact_mod_cast hk3)
  have hl : 0 ≤ l ∧ l ≤ 1 := by
    rw [hld]
    constructor
    · linarith [hx0.1, hy0.1, hz0.1]
    · linarith [hx0.1, hy0.1, hz0.1, hx0.2, hy0.2, hz0.2]
  have hm : 0 ≤ m ∧ m ≤ 1 := by
    rw [hmd]
    constructor
    · linarith [hx0.1, hy0.1, hz0.1]
    · linarith [hx0.1, hy0.1, hz0.1, hx0.2, hy0.2, hz0.2]
  have hs : 0 ≤ s ∧ s ≤ 1 := by
    rw [hsd]
    constructor
    · linarith [hx0.1, hy0.1, hz0.1]
    · linarith [hx0.1, hy0.1, hz0.1, hx0.2, hy0.2, hz0.2]
  have hu : 0 ≤ u ∧ u ≤ 1 := by
    rw [hud]
    exact ⟨rcbrt_nonneg hl.1, rcbrt_le_one hl.1 hl.2⟩
  have hv : 0 ≤ v ∧ v ≤ 1 := by
    rw [hvd]
    exact ⟨rcbrt_nonneg hm.1, rcbrt_le_one hm.1 hm.2⟩
  have hw : 0 ≤ w ∧ w ≤ 1 := by
    rw [hwd]
    exact ⟨rcbrt_nonneg hs.1, rcbrt_le_one hs.1 hs.2⟩
  have hul : u * u * u = l := by
    rw [hud, show rcbrt l * rcbrt l * rcbrt l = rcbrt l ^ 3 by ring]
    exact rcbrt_cube hl.1
  have hvm : v * v * v = m := by
    rw [hvd, show rcbrt m * rcbrt m * rcbrt m = rcbrt m ^ 3 by ring]
    exact rcbrt_cube hm.1
  have hws : w * w * w = s := by
    rw [hwd, show rcbrt s * rcbrt s * rcbrt s = rcbrt s ^ 3 by ring]
    exact rcbrt_cube hs.1
  have hpol := polar_recover A B
  rw [← hCd, ← hHd, ← ha2d, ← hb2d] at hpol
  have hA2 : |a2 - (1.9779984951 * u - 2.4285922050 * v + 0.4505937099 * w)| ≤
      2e-8 := by
    rw [← hAd]
    exact hpol.1
  have hB2 : |b2 - (0.0259040371 * u + 0.7827717662 * v - 0.8086757660 * w)| ≤
      2e-8 := by
    rw [← hBd]
    exact hpol.2
  obtain ⟨hdu, hdv, hdw⟩ :=
    oklab_inverse_delta hu.1 hu.2 hv.1 hv.2 hw.1 hw.2 hA2 hB2
  rw [← hLd] at hdu hdv hdw
  rw [← hcud] at hdu
  rw [← hcvd] at hdv
  rw [← hcwd] at hdw
  have hcu3 : |cu * cu * cu - l| ≤ 7e-7 := by
    rw [← hul]
    exact cube_delta hu.1 hu.2 hdu
  have hcv3 : |cv * cv * cv - m| ≤ 7e-7 := by
    rw [← hvm]
    exact cube_delta hv.1 hv.2 hdv
  have hcw3 : |cw * cw * cw - s| ≤ 7e-7 := by
    rw [← hws]
    exact cube_delta hw.1 hw.2 hdw
  obtain ⟨hR, hG, hBl⟩ := lms_inverse_delta hx0.1 hx0.2 hy0.1 hy0.2 hz0.1 hz0.2
    (by rw [← hld]; exact hcu3) (by rw [← hmd]; exact hcv3)
    (by rw [← hsd]; exact hcw3)
  have hs1 : |linear_to_srgb (4.0767416621 * (cu * cu * cu) -
      3.3077115913 * (cv * cv * cv) + 0.2309699292 * (cw * cw * cw)) -
      (k1 : ℝ) / 255| ≤ 0.0074 := by
    have hmod := linear_to_srgb_delta hx0.1 hx0.2 hR
    rw [hxd, gamma_roundtrip hk1] at hmod
    exact hmod
  have hs2 : |linear_to_srgb (-1.2684380046 * (cu * cu * cu) +
      2.6097574011 * (cv * cv * cv) - 0.3413193965 * (cw * cw * cw)) -
      (k2 : ℝ) / 255| ≤ 0.0074 := by
    have hmod := linear_to_srgb_delta hy0.1 hy0.2 hG
    rw [hyd, gamma_roundtrip hk2] at hmod
    exact hmod
  have hs3 : |linear_to_srgb (-0.0041960863 * (cu * cu * cu) -
      0.7034186147 * (cv * cv * cv) + 1.7076147010 * (cw * cw * cw)) -
      (k3 : ℝ) / 255| ≤ 0.0074 := by
    have hmod := linear_to_srgb_delta hz0.1 hz0.2 hBl
    rw [hzd, gamma_roundtrip hk3] at hmod
    exact hmod
  exact ⟨channel_close hk1 hs1, channel_close hk2 hs2, channel_close hk3 hs3⟩

/-- C1: for every byte triple (r, g, b), composing `rgb_to_oklch` and then
`oklch_to_rgb` returns a triple with each channel within ±2 of the
original byte value. -/
theorem oklch_roundtrip (r g b : Fin 256) :
    |((oklch_to_rgb (rgb_to_oklch r.val g.val b.val).1
        (rgb_to_oklch r.val g.val b.val).2.1
        (rgb_to_oklch r.val g.val b.val).2.2).1 : ℤ) - (r.val : ℤ)| ≤ 2 ∧
    |((oklch_to_rgb (rgb_to_oklch r.val g.val b.val).1
        (rgb_to_oklch r.val g.val b.val).2.1
        (rgb_to_oklch r.val g.val b.val).2.2).2.1 : ℤ) - (g.val : ℤ)| ≤ 2 ∧
    |((oklch_to_rgb (rgb_to_oklch r.val g.val b.val).1
        (rgb_to_oklch r.val g.val b.val).2.1
        (rgb_to_oklch r.val g.val b.val).2.2).2.2 : ℤ) - (b.val : ℤ)| ≤ 2 :=
  roundtrip_bytes r.val g.val b.val (Nat.lt_succ_iff.mp r.isLt)
    (Nat.lt_succ_iff.mp g.isLt) (Nat.lt_succ_iff.mp b.isLt)

end Shard
